import Mathlib

/-!
# A shallow embedding of the pygamelib spatial engine core

This file embeds, in Lean, the parts of `pygamelib/engine.py` (classes
`Board`, `Game`, `Inventory`) that the verified claims are about, together
with the capability-flag item model of `pygamelib/board_items.py` (that file
is not part of the sources at hand; the item flags and the projectile `hit`
callback are modelled from the specification, as noted on each such
definition).  Python objects become values; object mutation becomes explicit
state passing; Python exceptions become `Except`; Python `list` indexing
(including its negative wrap-around and `IndexError`) is modelled exactly.
-/

namespace PyGame

/-- Python exceptions that the embedded engine code can raise. -/
inductive PyErr where
  | outOfBoard        -- base.PglOutOfBoardBoundException
  | invalidType       -- base.PglInvalidTypeException
  | notMovable        -- base.PglObjectIsNotMovableException
  | invalidLevel      -- base.PglInvalidLevelException
  | indexError        -- Python IndexError from list subscripts
  | keyError          -- Python KeyError from dict subscripts
  | attributeError    -- Python AttributeError
  | invNotEnoughSpace -- base.PglInventoryException("not_enough_space", ...)
  | invNotPickable    -- base.PglInventoryException("not_pickable", ...)
  | invNoItem         -- base.PglInventoryException("no_item_by_that_name", ...)
  deriving DecidableEq, Repr

/-- Python list subscript resolution: a nonnegative index in range is used as
is, a negative index in `[-n, -1]` wraps to count from the end, anything else
is an `IndexError` (`none`). -/
def pyIdx (n : Nat) (i : Int) : Option Nat :=
  if 0 ≤ i ∧ i < (n : Int) then some i.toNat
  else if -(n : Int) ≤ i ∧ i < 0 then some (i + (n : Int)).toNat
  else none

/-- Python `l[i]` (read). -/
def pyGet (l : List α) (i : Int) : Option α :=
  (pyIdx l.length i).bind l.get?

/-- Python `l[i] = a` (write); `none` models the `IndexError`. -/
def pySet (l : List α) (i : Int) (a : α) : Option (List α) :=
  (pyIdx l.length i).map (fun n => l.set n a)

/-- The concrete `BoardItem` subclasses of `pygamelib.board_items` that the
claims touch.  Modelled from the spec: the hierarchy itself lives in
`board_items.py`, which is not among the sources; the spec lists the
variants and which of them are Movable or Immovable. -/
inductive ItemKind where
  | void              -- BoardItemVoid (neither Movable nor Immovable)
  | wall              -- Wall (Immovable)
  | treasure          -- Treasure (Immovable)
  | door              -- Door (Immovable)
  | genericStructure  -- GenericStructure (Immovable)
  | genericActionable -- GenericActionableStructure (Immovable, Actionable)
  | player            -- Player (Movable)
  | npc               -- NPC (Movable)
  | projectile        -- Projectile (Movable)
  deriving DecidableEq, Repr

/-- `isinstance(x, board_items.Movable)`. -/
def isMovableKind : ItemKind → Bool
  | .player | .npc | .projectile => true
  | _ => false

/-- `isinstance(x, board_items.Immovable)`. -/
def isImmovableKind : ItemKind → Bool
  | .wall | .treasure | .door | .genericStructure | .genericActionable => true
  | _ => false

/-- `isinstance(x, board_items.Actionable)`. -/
def isActionableKind : ItemKind → Bool
  | .genericActionable => true
  | _ => false

theorem movable_not_immovable (k : ItemKind) :
    isMovableKind k = true → isImmovableKind k = false := by
  cases k <;> simp [isMovableKind, isImmovableKind]

/-- Permission masks for Actionable items (`pygamelib.constants`). -/
inductive Perm where
  | playerAuthorized
  | npcAuthorized
  | allCharacters
  | allMovables
  | nonePerm
  deriving DecidableEq, Repr

/-- Movement directions accepted by `Board.move`: the eight constants of
`pygamelib.constants`, `NO_DIR`, or an (already rounded) `Vector2D`. -/
inductive Direction where
  | up | down | left | right
  | drup | drdown | dlup | dldown
  | noDir
  | vec (row column : Int)
  deriving DecidableEq, Repr

/-- Actuator state (`pygamelib.constants`). -/
inductive ActState where
  | running | paused | stopped
  deriving DecidableEq, Repr

/-- Modelled from the spec: the actuator contract is
`state ∈ {RUNNING, PAUSED, STOPPED}` and `next_move() → direction`; the
concrete actuator algorithms live outside the core.  We model an actuator
whose `next_move` always returns a fixed direction, which covers
`RandomActuator(moveset=[d])` as used by `Game.add_projectile`. -/
structure Actuator where
  state : ActState
  dir : Direction
  deriving DecidableEq, Repr

/-- The data of one board item.  Modelled from the spec where
`board_items.py` is silent in the sources: each item carries its position,
glyph (`model`), name, free type tag, capability flags
(pickable/overlappable/restorable), `inventory_space`, optional `value`, the
Actionable permission mask, and the Movable/Projectile specific fields.
Python object identity is modelled by the `id` field (generated `Void`
fillers all use id 0 and are never members of the movable/immovable sets). -/
structure PItem where
  id : Nat
  kind : ItemKind
  name : String
  model : String
  itype : String
  pickable : Bool
  overlappable : Bool
  restorable : Bool
  canMove : Bool
  pos : Int × Int
  invSpace : Nat
  value : Option Int
  perm : Perm
  isAoe : Bool
  aoeRadius : Int
  range : Int
  step : Int
  actuator : Option Actuator
  deriving DecidableEq, Repr

/-- An `Inventory` (engine.py, class Inventory): a max size and the insertion
ordered key → item dictionary. -/
structure Inv where
  maxSize : Nat
  items : List (String × PItem)
  deriving DecidableEq, Repr

/-- A board item together with its optional inventory (only Movables carry
one; items stored inside an inventory are plain `PItem`s). -/
structure Item where
  core : PItem
  inv : Option Inv
  deriving DecidableEq, Repr

/-- `item.has_inventory()` on a Movable. -/
def hasInventory (it : Item) : Bool := it.inv.isSome

/-- A `Board` (engine.py, class Board).  `size = [width, height]`;
`matrix[row][column]` is the visible layer and `overlapped[row][column]` the
hidden restore layer.  `movables` / `immovables` hold the ids of the items
registered by `place_item` / removed by `clear_cell` (Python uses sets of
objects compared by identity; ids model identity).  `activations` journals
the ids of Actionable items on which `activate()` was invoked, standing in
for the arbitrary user callback. -/
structure Board where
  name : String
  width : Nat
  height : Nat
  uiBorderLeft : String
  uiBorderRight : String
  uiBorderTop : String
  uiBorderBottom : String
  uiBoardVoidCell : String
  playerStart : Int × Int
  matrix : List (List Item)
  overlapped : List (List (Option Item))
  movables : Finset Nat
  immovables : Finset Nat
  activations : List Nat
  deriving DecidableEq

/-- `Board.generate_void_cell()`: a fresh `BoardItemVoid` using the board's
void-cell glyph.  Void items are overlappable, not pickable, not restorable
(spec §3); generated fillers all carry id 0, standing for "fresh object that
is a member of no set". -/
def generateVoidCell (b : Board) : Item :=
  { core := { id := 0, kind := .void, name := "void_cell", model := b.uiBoardVoidCell
              itype := "void_cell", pickable := false, overlappable := true
              restorable := false, canMove := false, pos := (0, 0), invSpace := 1
              value := none, perm := .nonePerm, isAoe := false, aoeRadius := 0
              range := 0, step := 0, actuator := none }
    inv := none }

/-- `Board.init_board()`: a `height × width` matrix of void cells and an
all-`None` overlapped matrix. -/
def initBoard (b : Board) : Board :=
  { b with
    matrix := List.replicate b.height (List.replicate b.width (generateVoidCell b))
    overlapped := List.replicate b.height (List.replicate b.width none) }

/-- A board as produced by `Board(...)`: sanity-checked fields, empty
movable/immovable sets, then `init_board()`. -/
def mkBoard (name : String) (width height : Nat) (voidCell : String) : Board :=
  initBoard
    { name := name, width := width, height := height
      uiBorderLeft := "|", uiBorderRight := "|", uiBorderTop := "-"
      uiBorderBottom := "-", uiBoardVoidCell := voidCell, playerStart := (0, 0)
      matrix := [], overlapped := [], movables := ∅, immovables := ∅
      activations := [] }

/-- Python `self._matrix[row][column]` (read): both subscripts wrap like
Python lists and can raise `IndexError`. -/
def matGet (b : Board) (r c : Int) : Except PyErr Item :=
  match pyGet b.matrix r with
  | none => .error .indexError
  | some row =>
    match pyGet row c with
    | none => .error .indexError
    | some it => .ok it

/-- Python `self._matrix[row][column] = it` (write). -/
def matSet (b : Board) (r c : Int) (it : Item) : Except PyErr Board :=
  match pyGet b.matrix r with
  | none => .error .indexError
  | some row =>
    match pySet row c it with
    | none => .error .indexError
    | some row' =>
      match pySet b.matrix r row' with
      | none => .error .indexError
      | some m' => .ok { b with matrix := m' }

/-- Python `self._overlapped_matrix[row][column]` (read). -/
def overGet (b : Board) (r c : Int) : Except PyErr (Option Item) :=
  match pyGet b.overlapped r with
  | none => .error .indexError
  | some row =>
    match pyGet row c with
    | none => .error .indexError
    | some it => .ok it

/-- Python `self._overlapped_matrix[row][column] = v` (write). -/
def overSet (b : Board) (r c : Int) (v : Option Item) : Except PyErr Board :=
  match pyGet b.overlapped r with
  | none => .error .indexError
  | some row =>
    match pySet row c v with
    | none => .error .indexError
    | some row' =>
      match pySet b.overlapped r row' with
      | none => .error .indexError
      | some m' => .ok { b with overlapped := m' }

/-- `Board.item(row, column)`: returns `matrix[row][column]` when
`row < size[1] and column < size[0]`, else raises
`PglOutOfBoardBoundException`.  There is no lower-bound test, so negative
subscripts reach the Python list indexing in `matGet`. -/
def boardItem (b : Board) (r c : Int) : Except PyErr Item :=
  if r < (b.height : Int) ∧ c < (b.width : Int) then matGet b r c
  else .error .outOfBoard

/-- `item.store_position(r, c)`. -/
def reposition (it : Item) (r c : Int) : Item :=
  { it with core := { it.core with pos := (r, c) } }

/-- The movables/immovables registration step of `place_item`. -/
def regSets (b : Board) (it : Item) : Board :=
  if isMovableKind it.core.kind then
    { b with movables := insert it.core.id b.movables }
  else if isImmovableKind it.core.kind then
    { b with immovables := insert it.core.id b.immovables }
  else b

/-- The set-discarding step of `clear_cell`. -/
def unregister (b : Board) (occ : Item) : Board :=
  if occ.core.id ∈ b.movables then
    { b with movables := b.movables.erase occ.core.id }
  else if occ.core.id ∈ b.immovables then
    { b with immovables := b.immovables.erase occ.core.id }
  else b

/-- `Board.place_item(item, row, column)` for a single-cell item (the claims
only concern non-complex items).  If the destination currently holds an
Immovable that is restorable and overlappable it is saved into the
overlapped matrix; the item is then written into the matrix, its position is
stored, and it is registered in the movables/immovables set matching its
class.  Out-of-(upper-)bounds coordinates raise
`PglOutOfBoardBoundException`.  The function also returns the placed item
(whose `pos` was mutated by `store_position`), mirroring the Python object
mutation.  Sprixels are not modelled (all items have `sprixel is None`, so
the background-adoption branch never fires). -/
def placeItem (b : Board) (it : Item) (r c : Int) : Except PyErr (Board × Item) :=
  if r < (b.height : Int) ∧ c < (b.width : Int) then do
    let existing ← matGet b r c
    let b ←
      if isImmovableKind existing.core.kind ∧ existing.core.restorable
          ∧ existing.core.overlappable then
        overSet b r c (some existing)
      else pure b
    let it' : Item := reposition it r c
    let b ← matSet b r c it'
    let b := regSets b it'
    return (b, it')
  else .error .outOfBoard

/-- `Board.clear_cell(row, column)`: discard the occupant from the
movables/immovables set it belongs to, then replace the cell by the parked
overlapped item if there is one (clearing the slot) and otherwise by a fresh
void cell. -/
def clearCell (b : Board) (r c : Int) : Except PyErr Board := do
  let occ ← matGet b r c
  let b := unregister b occ
  let parked ← overGet b r c
  match parked with
  | some p => do
    let b ← matSet b r c p
    overSet b r c none
  | none => matSet b r c (generateVoidCell b)

/-- `Inventory.size()`: the cumulated `inventory_space()` of the contents
(every modelled item has the `_inventory_space` attribute, as the spec's
data model gives every `BoardItem` an `inventory_space`). -/
def invSize (inv : Inv) : Nat :=
  (inv.items.map (fun p => p.2.invSpace)).sum

/-- `Inventory.value()`: the cumulated `value` of the items that carry one
(`hasattr(item, "value")` is modelled by `value = some _`). -/
def invValue (inv : Inv) : Int :=
  (inv.items.filterMap (fun p => p.2.value)).sum

/-- Modelled from the spec: `Inventory.add_item` de-duplicates an empty or
clashing name by appending a UUID suffix.  The UUID draw is replaced by a
deterministic search for a fresh suffix (the claims only need that the
resulting key is not already present). -/
def freshName (keys : List String) (base : String) : String :=
  match (List.range (keys.length + 1)).find?
      (fun k => ¬ keys.contains (base ++ String.mk (List.replicate (k + 1) 'u'))) with
  | some k => base ++ String.mk (List.replicate (k + 1) 'u')
  | none => base ++ "u"

/-- `Inventory.add_item(item)`: non-`BoardItem` arguments are impossible in
the model; a non-pickable item raises `not_pickable`; an empty or duplicate
name is made unique first; then the item is stored iff
`max_size >= size() + item.inventory_space()`, otherwise `not_enough_space`
is raised and the stored contents are untouched. -/
def invAddItem (inv : Inv) (it : PItem) : Except PyErr Inv :=
  if it.pickable then
    let keys := inv.items.map Prod.fst
    let nm := if it.name = "" ∨ keys.contains it.name then freshName keys it.name
              else it.name
    if invSize inv + it.invSpace ≤ inv.maxSize then
      .ok { inv with items := inv.items ++ [(nm, { it with name := nm })] }
    else .error .invNotEnoughSpace
  else .error .invNotPickable

/-- `Inventory.delete_item(name)`: exact-key removal, raising
`no_item_by_that_name` when the key is absent. -/
def invDelete (inv : Inv) (name : String) : Except PyErr Inv :=
  if (inv.items.map Prod.fst).contains name then
    .ok { inv with items := inv.items.filter (fun p => p.1 ≠ name) }
  else .error .invNoItem

/-- One call in a sequence of `add_item`/`delete_item` applications made by a
caller that catches the inventory exceptions (on an exception the inventory
object is left as it was). -/
inductive InvOp where
  | add (it : PItem)
  | del (name : String)
  deriving DecidableEq, Repr

/-- Apply one `InvOp`, keeping the old inventory when the call raises. -/
def invApply (inv : Inv) : InvOp → Inv
  | .add it => match invAddItem inv it with
    | .ok inv' => inv'
    | .error _ => inv
  | .del name => match invDelete inv name with
    | .ok inv' => inv'
    | .error _ => inv

/-- The destination `(new_row, new_column)` computed by `Board._move_simple`
from the direction and step; `none` models the `None` initialisation left in
place by `NO_DIR` (or any unknown constant). -/
def destCoords (pos : Int × Int) (d : Direction) (step : Int) : Option (Int × Int) :=
  match d with
  | .vec dr dc => some (pos.1 + dr, pos.2 + dc)
  | .up => some (pos.1 - step, pos.2)
  | .down => some (pos.1 + step, pos.2)
  | .left => some (pos.1, pos.2 - step)
  | .right => some (pos.1, pos.2 + step)
  | .drup => some (pos.1 - step, pos.2 + step)
  | .drdown => some (pos.1 + step, pos.2 + step)
  | .dlup => some (pos.1 - step, pos.2 - step)
  | .dldown => some (pos.1 + step, pos.2 - step)
  | .noDir => none

/-- The activation permission test of `Board._move_simple`: a Player may
activate `PLAYER_AUTHORIZED` / `ALL_CHARACTERS_AUTHORIZED` items, an NPC may
activate `NPC_AUTHORIZED` / `ALL_CHARACTERS_AUTHORIZED` items (the simple
mover has no `ALL_MOVABLE_AUTHORIZED` clause, unlike `_move_complex`). -/
def permittedSimple (mover dest : PItem) : Bool :=
  (mover.kind = .player ∧ (dest.perm = .playerAuthorized ∨ dest.perm = .allCharacters))
  ∨ (mover.kind = .npc ∧ (dest.perm = .npcAuthorized ∨ dest.perm = .allCharacters))

/-- The Actionable-activation step of `Board._move_simple`: journal the
`activate()` call on a permitted Actionable destination. -/
def activateIf (b : Board) (mover dest : PItem) : Board :=
  if isActionableKind dest.kind ∧ permittedSimple mover dest then
    { b with activations := b.activations ++ [dest.id] }
  else b

/-- The shared tail of `Board._move_simple`: place a fresh void at the
departure cell, then place the mover at the destination. -/
def moveFinishVoid (b : Board) (item : Item) (nr nc : Int) :
    Except PyErr (Board × Item) := do
  let (b, _) ← placeItem b (generateVoidCell b) item.core.pos.1 item.core.pos.2
  let (b, item') ← placeItem b item nr nc
  return (b, item')

/-- `Board._move_simple(item, direction, step)`.  Raising, refusing and
mutation order follow the source line by line: bounds are only checked on
the computed destination (silently refusing out-of-bounds moves);
a permitted Actionable destination is activated (journalled); a
non-overlappable pickable destination is put into the mover's inventory and
its cell cleared; then, if the (possibly refreshed) destination is
overlappable, a restorable Immovable destination is parked, the departure
cell receives either its restored parked item or a fresh void, and the mover
is placed; otherwise the move is refused with no change. -/
def moveSimple (b : Board) (item : Item) (d : Direction) (step : Int) :
    Except PyErr (Board × Item) :=
  if isMovableKind item.core.kind ∧ item.core.canMove then
    match destCoords item.core.pos d step with
    | none => .ok (b, item)
    | some (nr, nc) =>
      if 0 ≤ nr ∧ 0 ≤ nc ∧ nr < (b.height : Int) ∧ nc < (b.width : Int) then do
        let dest ← matGet b nr nc
        let b := activateIf b item.core dest.core
        let st ←
          if ¬ dest.core.overlappable ∧ dest.core.pickable
              ∧ isMovableKind item.core.kind ∧ hasInventory item then do
            match item.inv with
            | some inv0 => do
              let inv1 ← invAddItem inv0 dest.core
              let b1 ← clearCell b nr nc
              pure (b1, { item with inv := some inv1 })
            | none => .error .attributeError
          else pure (b, item)
        let b := st.1
        let item := st.2
        let dest2 ← matGet b nr nc
        if dest2.core.overlappable then do
          let b ←
            if dest2.core.kind ≠ .void ∧ isImmovableKind dest2.core.kind
                ∧ dest2.core.restorable then
              overSet b nr nc (some dest2)
            else pure b
          let parked ← overGet b item.core.pos.1 item.core.pos.2
          match parked with
          | some ovl =>
            if isImmovableKind ovl.core.kind ∧ ovl.core.restorable
                ∧ (ovl.core.pos.1 ≠ nr ∨ ovl.core.pos.2 ≠ nc) then do
              let (b, _) ← placeItem b ovl ovl.core.pos.1 ovl.core.pos.2
              let b ← overSet b item.core.pos.1 item.core.pos.2 none
              let (b, item') ← placeItem b item nr nc
              return (b, item')
            else moveFinishVoid b item nr nc
          | none => moveFinishVoid b item nr nc
        else return (b, item)
      else .ok (b, item)
  else .error .notMovable

/-- One game level: `Game._boards[n] = {"board": ..., "projectiles": [...]}`
(the NPC roster is not needed by the claims). -/
structure Level where
  board : Board
  projectiles : List Item
  deriving DecidableEq

/-- The `Game` object: the level table, the current level, the player, the
engine state, and a journal of projectile `hit` invocations.  Modelled from
the spec: `Projectile.hit(items)` (in `board_items.py`, not among the
sources) invokes the projectile's hit callback once with the list of struck
items; the journal records each invocation as (projectile id, struck
items). -/
structure Game where
  levels : List (Int × Level)
  currentLevel : Int
  player : Option Item
  state : ActState
  hits : List (Nat × List Item)
  deriving DecidableEq

/-- Dictionary lookup `Game._boards[n]`. -/
def getLevel (g : Game) (n : Int) : Option Level :=
  (g.levels.find? (fun p => p.1 = n)).map Prod.snd

/-- Dictionary update `Game._boards[n] = lvl`. -/
def setLevel (g : Game) (n : Int) (lvl : Level) : Game :=
  { g with levels := g.levels.map (fun p => if p.1 = n then (n, lvl) else p) }

/-- `Game.current_board()`: the board of `current_level`, raising
`PglInvalidLevelException` when that level has no board. -/
def currentBoard (g : Game) : Except PyErr Board :=
  match getLevel g g.currentLevel with
  | some lvl => .ok lvl.board
  | none => .error .invalidLevel

/-- Python `range(-radius, radius + 1)` as used by `Game.neighbors`
(empty when `radius < 0`). -/
def offsetRange (r : Int) : List Int :=
  (List.range (2 * r + 1).toNat).map (fun k => (k : Int) - r)

/-- `Game.neighbors(radius, object)`: scan the offset square row-major,
skip the center, and keep every non-void `Board.item(true_x, true_y)` for
which `true_x < size[1] and true_y < size[0]` — there is no lower-bound
test, so negative probe coordinates reach Python's wrap-around list
indexing (the source calls `item()` twice, for the test and for the append;
both calls return the same value, so one call is made here). -/
def neighbors (g : Game) (radius : Int) (obj : Item) : Except PyErr (List Item) := do
  let board ← currentBoard g
  (offsetRange radius).foldlM (fun acc x =>
    (offsetRange radius).foldlM (fun acc y =>
      if x = 0 ∧ y = 0 then pure acc
      else
        let tx := obj.core.pos.1 + x
        let ty := obj.core.pos.2 + y
        if tx < (board.height : Int) ∧ ty < (board.width : Int) then do
          let it ← boardItem board tx ty
          if it.core.kind ≠ .void then pure (acc ++ [it]) else pure acc
        else pure acc) acc) []

/-- The `BoardItemVoid()` placeholder handed to directional projectile hit
callbacks by `Game.actuate_projectiles`.  Modelled from the spec ("a
placeholder Void is passed first"): a default-constructed void item. -/
def placeholderVoid : Item :=
  { core := { id := 0, kind := .void, name := "void_cell", model := " "
              itype := "void_cell", pickable := false, overlappable := true
              restorable := false, canMove := false, pos := (0, 0), invSpace := 1
              value := none, perm := .nonePerm, isAoe := false, aoeRadius := 0
              range := 0, step := 0, actuator := none }
    inv := none }

/-- `Game.add_projectile(level_number, projectile, row, column)` with int
coordinates: silently return when out of bounds; when the target cell holds
a non-void item, fire the hit callback (AoE: `neighbors(aoe_radius,
check_object)`; directional: the single blocker) and do not add the
projectile; otherwise give the projectile a default RIGHT actuator if it has
none, place it and append it to the roster. -/
def addProjectile (g : Game) (lvlNum : Int) (proj : Item) (r c : Int) :
    Except PyErr Game :=
  match getLevel g lvlNum with
  | none => .error .keyError
  | some lvl =>
    if r ≥ (lvl.board.height : Int) ∨ c ≥ (lvl.board.width : Int)
        ∨ r < 0 ∨ c < 0 then .ok g
    else do
      let co ← boardItem lvl.board r c
      if co.core.kind ≠ .void then
        if proj.core.isAoe then do
          let ns ← neighbors g proj.core.aoeRadius co
          return { g with hits := g.hits ++ [(proj.core.id, ns)] }
        else
          return { g with hits := g.hits ++ [(proj.core.id, [co])] }
      else do
        let proj :=
          if proj.core.actuator = none then
            { proj with core := { proj.core with
                actuator := some { state := .running, dir := .right } } }
          else proj
        let (b', proj') ← placeItem lvl.board proj r c
        return setLevel g lvlNum
          { board := b', projectiles := lvl.projectiles ++ [proj'] }

/-- The cell "immediately beyond" a collided directional projectile,
computed by `Game.actuate_projectiles` with an eight-constant switch (a
`Vector2D` direction leaves `new_x`/`new_y` as `None`). -/
def beyondCoords (pos : Int × Int) (d : Direction) (step : Int) :
    Option (Int × Int) :=
  match d with
  | .up => some (pos.1 - step, pos.2)
  | .down => some (pos.1 + step, pos.2)
  | .left => some (pos.1, pos.2 - step)
  | .right => some (pos.1, pos.2 + step)
  | .drup => some (pos.1 - step, pos.2 + step)
  | .drdown => some (pos.1 + step, pos.2 + step)
  | .dlup => some (pos.1 - step, pos.2 - step)
  | .dldown => some (pos.1 + step, pos.2 - step)
  | _ => none

/-- One iteration of the `for proj in projectiles` body of
`Game.actuate_projectiles` for the projectile `p` found at roster index `i`.
The Python statement `proj.range -= proj.step` mutates the object shared by
the roster and the board matrix; the model writes the updated item back to
both. -/
def projStep (g : Game) (lvlNum : Int) (p : Item) (i : Nat) : Except PyErr Game :=
  match getLevel g lvlNum with
  | none => .error .keyError
  | some lvl =>
    match p.core.actuator with
    | none => .error .attributeError
    | some act =>
      if act.state = .running then
        if p.core.range > 0 then do
          let initPos := p.core.pos
          let dir := act.dir
          let (b1, p1) ← moveSimple lvl.board p dir p.core.step
          let p2 : Item :=
            { p1 with core := { p1.core with range := p1.core.range - p.core.step } }
          let b2 ← matSet b1 p2.core.pos.1 p2.core.pos.2 p2
          let g := setLevel g lvlNum
            { board := b2, projectiles := lvl.projectiles.set i p2 }
          if p2.core.pos = initPos then
            if p2.core.isAoe then do
              let ns ← neighbors g p2.core.aoeRadius p2
              return { g with hits := g.hits ++ [(p2.core.id, ns)] }
            else do
              let g := { g with hits := g.hits ++ [(p2.core.id, [placeholderVoid])] }
              match beyondCoords p2.core.pos dir p2.core.step with
              | some (nx, ny) =>
                if 0 ≤ nx ∧ 0 ≤ ny ∧ nx < (b2.height : Int)
                    ∧ ny < (b2.width : Int) then do
                  let blocker ← boardItem b2 nx ny
                  return { g with hits := g.hits ++ [(p2.core.id, [blocker])] }
                else return g
              | none => return g
          else return g
        else if p.core.range = 0 then
          if p.core.isAoe then do
            let ns ← neighbors g p.core.aoeRadius p
            return { g with hits := g.hits ++ [(p.core.id, ns)] }
          else
            return { g with hits := g.hits ++ [(p.core.id, [placeholderVoid])] }
        else do
          let b' ← clearCell lvl.board p.core.pos.1 p.core.pos.2
          return setLevel g lvlNum
            { board := b', projectiles := lvl.projectiles.erase p }
      else if act.state = .stopped then do
        let b' ← clearCell lvl.board p.core.pos.1 p.core.pos.2
        return setLevel g lvlNum
          { board := b', projectiles := lvl.projectiles.erase p }
      else .ok g

/-- The `for proj in self._boards[level_number]["projectiles"]` loop:
Python's list iterator advances one index per pass over the live (possibly
shrinking) list; `fuel` bounds the iteration count by the initial roster
length. -/
def projLoop (g : Game) (lvlNum : Int) (i : Nat) : Nat → Except PyErr Game
  | 0 => .ok g
  | fuel + 1 =>
    match getLevel g lvlNum with
    | none => .error .keyError
    | some lvl =>
      match lvl.projectiles.get? i with
      | none => .ok g
      | some p => do
        let g' ← projStep g lvlNum p i
        projLoop g' lvlNum (i + 1) fuel

/-- `Game.actuate_projectiles(level_number)`: a no-op unless the game state
is RUNNING; raises `PglInvalidLevelException` for an unknown level;
otherwise runs the roster loop. -/
def actuateProjectiles (g : Game) (lvlNum : Int) : Except PyErr Game :=
  if g.state = .running then
    match getLevel g lvlNum with
    | none => .error .invalidLevel
    | some lvl => projLoop g lvlNum 0 lvl.projectiles.length
  else .ok g

/-- Is `needle` a prefix of `hay`? (helper for Python's `in` on strings). -/
def listHasPre [DecidableEq α] : List α → List α → Bool
  | [], _ => true
  | _ :: _, [] => false
  | a :: as, b :: bs => a = b ∧ listHasPre as bs

/-- Is `needle` a contiguous sublist of `hay`? -/
def listHasSub [DecidableEq α] (needle : List α) : List α → Bool
  | [] => needle.isEmpty
  | b :: bs => listHasPre needle (b :: bs) || listHasSub needle bs

/-- Python `needle in hay` on strings, as used by `Game._ref2obj` to
dispatch on the saved class string. -/
def strHas (hay needle : String) : Bool :=
  listHasSub needle.toList hay.toList

/-- `str(obj.__class__)` up to the `<class '...'>` wrapper, which plays no
role in the substring dispatch of `Game._ref2obj`. -/
def classString : ItemKind → String
  | .void => "pygamelib.board_items.BoardItemVoid"
  | .wall => "pygamelib.board_items.Wall"
  | .treasure => "pygamelib.board_items.Treasure"
  | .door => "pygamelib.board_items.Door"
  | .genericStructure => "pygamelib.board_items.GenericStructure"
  | .genericActionable => "pygamelib.board_items.GenericActionableStructure"
  | .player => "pygamelib.board_items.Player"
  | .npc => "pygamelib.board_items.NPC"
  | .projectile => "pygamelib.board_items.Projectile"

/-- One `itemRef` entry of the persisted level document: the common fields
are always present, the type-specific ones are `some` exactly when
`Game._obj2ref` stored them (NPC actuator payloads are outside the modelled
claims). -/
structure ItemRef where
  object : String
  name : String
  pos : Int × Int
  model : String
  itype : String
  invSpace : Option Nat
  value : Option Int
  overlappable : Option Bool
  pickable : Option Bool
  restorable : Option Bool
  deriving DecidableEq, Repr

/-- `Game._obj2ref(obj)`: the common fields plus, per class, the
type-specific fields the source stores.  `Door` is a `GenericStructure`
subclass in pygamelib, so its branch stores the same five fields as the
`GenericStructure`/`GenericActionableStructure` branch. -/
def obj2ref (it : Item) : ItemRef :=
  let base : ItemRef :=
    { object := classString it.core.kind, name := it.core.name
      pos := it.core.pos, model := it.core.model, itype := it.core.itype
      invSpace := none, value := none, overlappable := none
      pickable := none, restorable := none }
  match it.core.kind with
  | .wall => { base with invSpace := some it.core.invSpace }
  | .treasure =>
    { base with value := it.core.value, invSpace := some it.core.invSpace }
  | .genericStructure | .genericActionable | .door =>
    { base with
      value := it.core.value
      invSpace := some it.core.invSpace
      overlappable := some it.core.overlappable
      pickable := some it.core.pickable
      restorable := some it.core.restorable }
  | _ => base

/-- Modelled from the spec: the default field values of the freshly
constructed `board_items` classes used by `Game._ref2obj`
(`board_items.py` is not among the sources; the spec gives the per-variant
capability defaults: Wall non-overlappable, Treasure pickable, Door
overlappable and restorable). -/
def defaultOfKind (k : ItemKind) : PItem :=
  { id := 0, kind := k, name := "", model := " ", itype := ""
    pickable := k = .treasure
    overlappable := k = .void ∨ k = .door
    restorable := k = .door
    canMove := isMovableKind k
    pos := (0, 0), invSpace := 1
    value := if k = .treasure then some 10 else none
    perm := .nonePerm, isAoe := false, aoeRadius := 0, range := 0, step := 0
    actuator := none }

/-- `Game._ref2obj(ref)`: dispatch on class-name substrings in source
order, apply the optional fields the source applies for each branch (note:
the `GenericStructure` and `GenericActionableStructure` branches apply
`pickable` and `overlappable` but not `restorable`; only the `Door` branch
applies `restorable`), then the common name/model/type fields for non-void
results.  NPC reconstruction (actuator payloads) is outside the modelled
claims: NPC refs fall through to the void default, as does every class the
dispatch does not know. -/
def ref2obj (ref : ItemRef) : Item :=
  let core :=
    if strHas ref.object "Wall" then defaultOfKind .wall
    else if strHas ref.object "Treasure" then
      let c := defaultOfKind .treasure
      let c := match ref.value with | some v => { c with value := some v } | none => c
      match ref.invSpace with | some s => { c with invSpace := s } | none => c
    else if strHas ref.object "GenericStructure" then
      let c := defaultOfKind .genericStructure
      let c := match ref.value with | some v => { c with value := some v } | none => c
      let c := match ref.invSpace with | some s => { c with invSpace := s } | none => c
      let c := match ref.pickable with | some p => { c with pickable := p } | none => c
      match ref.overlappable with | some o => { c with overlappable := o } | none => c
    else if strHas ref.object "Door" then
      let c := defaultOfKind .door
      let c := match ref.value with | some v => { c with value := some v } | none => c
      let c := match ref.invSpace with | some s => { c with invSpace := s } | none => c
      let c := match ref.pickable with | some p => { c with pickable := p } | none => c
      let c := match ref.overlappable with | some o => { c with overlappable := o } | none => c
      match ref.restorable with | some s => { c with restorable := s } | none => c
    else if strHas ref.object "GenericActionableStructure" then
      let c := defaultOfKind .genericActionable
      let c := match ref.value with | some v => { c with value := some v } | none => c
      let c := match ref.invSpace with | some s => { c with invSpace := s } | none => c
      let c := match ref.pickable with | some p => { c with pickable := p } | none => c
      match ref.overlappable with | some o => { c with overlappable := o } | none => c
    else defaultOfKind .void
  let core :=
    if core.kind ≠ .void then
      { core with name := ref.name, model := ref.model, itype := ref.itype }
    else core
  { core := core, inv := none }

/-- The persisted level document written by `Game.save_board` (the
`library` section is empty in all modelled games and is omitted; `map_data`
keeps the row-major write order of the nested position-keyed dicts). -/
structure SaveData where
  name : String
  playerStart : Int × Int
  uiBorderLeft : String
  uiBorderRight : String
  uiBorderTop : String
  uiBorderBottom : String
  uiBoardVoidCell : String
  size : Nat × Nat
  mapData : List (Int × Int × ItemRef)
  deriving DecidableEq, Repr

/-- `Game.save_board(lvl_number, filename)`: level-existence check, then the
document fields are taken from `self._boards[lvl_number]["board"]` — but
`map_data` is collected by iterating over `self.current_board()._matrix`,
skipping `BoardItemVoid` and `Player` items and keying each entry by the
item's own stored position. -/
def saveBoard (g : Game) (lvl : Int) : Except PyErr SaveData :=
  match getLevel g lvl with
  | none => .error .invalidLevel
  | some lvlData => do
    let lb := lvlData.board
    let cb ← currentBoard g
    let mapData := cb.matrix.foldl (fun acc row =>
      row.foldl (fun acc y =>
        if y.core.kind ≠ .void ∧ y.core.kind ≠ .player then
          acc ++ [(y.core.pos.1, y.core.pos.2, obj2ref y)]
        else acc) acc) []
    return { name := lb.name, playerStart := lb.playerStart
             uiBorderLeft := lb.uiBorderLeft, uiBorderRight := lb.uiBorderRight
             uiBorderTop := lb.uiBorderTop, uiBorderBottom := lb.uiBorderBottom
             uiBoardVoidCell := lb.uiBoardVoidCell
             size := (lb.width, lb.height), mapData := mapData }

/-- `Game.add_board(level_number, board)` (with an int level and a Board,
so no type errors): create or replace the level entry with a fresh NPC and
projectile roster. -/
def addBoard (g : Game) (lvl : Int) (b : Board) : Game :=
  if (getLevel g lvl).isSome then setLevel g lvl { board := b, projectiles := [] }
  else { g with levels := g.levels ++ [(lvl, { board := b, projectiles := [] })] }

/-- `Game.load_board(filename, lvl_number)`: build a fresh `Board()` with
the document's fields, re-init it, associate it with the level, then place
every reconstructed non-NPC non-void object at the document coordinates
(`place_item` raising out of bounds propagates).  The source associates the
board before placing items and keeps mutating the same object; the model
equivalently places the items first and then stores the finished board. -/
def loadBoard (g : Game) (sd : SaveData) (lvl : Int) :
    Except PyErr (Game × Board) := do
  let lb0 := initBoard
    { name := sd.name, width := sd.size.1, height := sd.size.2
      uiBorderLeft := sd.uiBorderLeft, uiBorderRight := sd.uiBorderRight
      uiBorderTop := sd.uiBorderTop, uiBorderBottom := sd.uiBorderBottom
      uiBoardVoidCell := sd.uiBoardVoidCell, playerStart := sd.playerStart
      matrix := [], overlapped := [], movables := ∅, immovables := ∅
      activations := [] }
  let lb ← sd.mapData.foldlM (fun b e =>
    let o := ref2obj e.2.2
    if o.core.kind ≠ .npc ∧ o.core.kind ≠ .void then do
      let (b', _) ← placeItem b o e.1 e.2.1
      pure b'
    else pure b) lb0
  return (addBoard g lvl lb, lb)

/-! ## Specification-side vocabulary used by the theorems -/

/-- The matrix cell at (natural) coordinates, `none` outside the lists. -/
def cellAt (b : Board) (rn cn : Nat) : Option Item :=
  match b.matrix.get? rn with
  | some row => row.get? cn
  | none => none

/-- The overlapped-matrix slot at (natural) coordinates. -/
def parkAt (b : Board) (rn cn : Nat) : Option Item :=
  match b.overlapped.get? rn with
  | some row => (row.get? cn).getD none
  | none => none

/-- Both layers have `height` rows of `width` cells. -/
def WellSized (b : Board) : Prop :=
  b.matrix.length = b.height ∧ (∀ row ∈ b.matrix, row.length = b.width)
  ∧ b.overlapped.length = b.height ∧ (∀ row ∈ b.overlapped, row.length = b.width)

instance (b : Board) : Decidable (WellSized b) := by
  unfold WellSized; infer_instance

/-- The forward membership invariant over the two id sets: every Movable in
the matrix is registered in `movables`, every Immovable in the matrix is
registered in `immovables`, and every parked item is an Immovable
registered in `immovables`. -/
def GoodSets (b : Board) : Prop :=
  (∀ rn < b.height, ∀ cn < b.width, ∀ it ∈ cellAt b rn cn,
    (isMovableKind it.core.kind = true → it.core.id ∈ b.movables)
    ∧ (isImmovableKind it.core.kind = true → it.core.id ∈ b.immovables))
  ∧ (∀ rn < b.height, ∀ cn < b.width, ∀ it ∈ parkAt b rn cn,
    isImmovableKind it.core.kind = true ∧ it.core.id ∈ b.immovables)

instance (b : Board) : Decidable (GoodSets b) := by
  unfold GoodSets; exact @instDecidableAnd _ _ inferInstance inferInstance

/-- Void fillers are identity-irrelevant: a void cell's id belongs to
neither set (in Python every generated void is a fresh object that was
never added to a set). -/
def VoidsFree (b : Board) : Prop :=
  ∀ rn < b.height, ∀ cn < b.width, ∀ it ∈ cellAt b rn cn,
    it.core.kind = ItemKind.void →
    it.core.id ∉ b.movables ∧ it.core.id ∉ b.immovables

instance (b : Board) : Decidable (VoidsFree b) := by
  unfold VoidsFree; infer_instance

/-- All (row, column) coordinate pairs of a board. -/
def boardSlots (b : Board) : List (Nat × Nat) :=
  (List.range b.height).foldr
    (fun r acc => ((List.range b.width).map (fun c => (r, c))) ++ acc) []

/-- No Python object sits in two slots: distinct matrix cells holding
non-void items hold items with distinct ids, a non-void matrix item never
shares its id with a parked item, and distinct overlap slots hold items
with distinct ids. -/
def DistinctSlots (b : Board) : Prop :=
  (∀ p₁ ∈ boardSlots b, ∀ p₂ ∈ boardSlots b,
    ∀ x ∈ cellAt b p₁.1 p₁.2, ∀ y ∈ cellAt b p₂.1 p₂.2,
      x.core.kind ≠ ItemKind.void → y.core.kind ≠ ItemKind.void →
      p₁ ≠ p₂ → x.core.id ≠ y.core.id)
  ∧ (∀ p₁ ∈ boardSlots b, ∀ p₂ ∈ boardSlots b,
    ∀ x ∈ cellAt b p₁.1 p₁.2, ∀ y ∈ parkAt b p₂.1 p₂.2,
      x.core.kind ≠ ItemKind.void → x.core.id ≠ y.core.id)
  ∧ (∀ p₁ ∈ boardSlots b, ∀ p₂ ∈ boardSlots b,
    ∀ x ∈ parkAt b p₁.1 p₁.2, ∀ y ∈ parkAt b p₂.1 p₂.2,
      p₁ ≠ p₂ → x.core.id ≠ y.core.id)

instance (b : Board) : Decidable (DistinctSlots b) := by
  unfold DistinctSlots
  exact @instDecidableAnd _ _ inferInstance (@instDecidableAnd _ _ inferInstance inferInstance)

/-- Set (natural) matrix cell, in normal form. -/
def setCell (b : Board) (rn cn : Nat) (it : Item) : Board :=
  { b with matrix := b.matrix.set rn (((b.matrix.get? rn).getD []).set cn it) }

/-- Set (natural) overlap slot, in normal form. -/
def setPark (b : Board) (rn cn : Nat) (v : Option Item) : Board :=
  { b with overlapped := b.overlapped.set rn (((b.overlapped.get? rn).getD []).set cn v) }

/-- The overlap-saving step of `place_item` in normal form. -/
def parkIf (b : Board) (ex : Item) (rn cn : Nat) : Board :=
  if isImmovableKind ex.core.kind ∧ ex.core.restorable ∧ ex.core.overlappable then
    setPark b rn cn (some ex)
  else b

/-- `place_item` at in-range coordinates, in normal form. -/
def placeNorm (b : Board) (ex it : Item) (rn cn : Nat) (r c : Int) : Board :=
  regSets (setCell (parkIf b ex rn cn) rn cn (reposition it r c)) (reposition it r c)

/-- `clear_cell` at in-range coordinates, in normal form. -/
def clearNorm (b : Board) (occ : Item) (pk : Option Item) (rn cn : Nat) : Board :=
  match pk with
  | some p => setPark (setCell (unregister b occ) rn cn p) rn cn none
  | none => setCell (unregister b occ) rn cn (generateVoidCell b)

/-! ## Concrete scenario constants (witnesses and counterexamples) -/

/-- A Player (Movable) with the given id and inventory. -/
def mkPlayer (idn : Nat) (inv : Option Inv) : Item :=
  { core := { defaultOfKind .player with id := idn, name := "player" }, inv := inv }

/-- A Door: Immovable, overlappable and restorable. -/
def mkDoor (idn : Nat) : Item :=
  { core := { defaultOfKind .door with id := idn, name := "door" }, inv := none }

/-- A Wall: Immovable, not overlappable. -/
def mkWall (idn : Nat) : Item :=
  { core := { defaultOfKind .wall with id := idn, name := "wall" }, inv := none }

/-- A Treasure with the given inventory space and value: Immovable,
pickable, not overlappable. -/
def mkTreasure (idn : Nat) (sp : Nat) (v : Int) : Item :=
  { core := { defaultOfKind .treasure with
      id := idn
      name := "treasure"
      invSpace := sp
      value := some v }
    inv := none }

/-- A directional projectile with a running fixed-direction actuator. -/
def mkProj (idn : Nat) (rng stp : Int) (d : Direction) : Item :=
  { core := { defaultOfKind .projectile with
      id := idn
      name := "proj"
      range := rng
      step := stp
      actuator := some { state := .running, dir := d } }
    inv := none }

/-- An AoE projectile with the given radius. -/
def mkAoeProj (idn : Nat) (radius : Int) : Item :=
  { core := { defaultOfKind .projectile with
      id := idn
      name := "proj"
      isAoe := true
      aoeRadius := radius }
    inv := none }

/-- A single-level game whose current level is 0. -/
def mkGame (b : Board) (projs : List Item) : Game :=
  { levels := [(0, { board := b, projectiles := projs })]
    currentLevel := 0
    player := none
    state := .running
    hits := [] }

/-- The index a Python list subscript in `[-n, n)` actually addresses:
nonnegative subscripts address themselves, negative ones count from the
end. -/
def wrapIdx (n : Nat) (i : Int) : Nat :=
  if 0 ≤ i then i.toNat else (i + (n : Int)).toNat

/-- Fold a list of placements over a board, ignoring failed placements
(used only to build concrete scenario boards). -/
def placeAll (b : Board) (l : List (Item × Int × Int)) : Board :=
  l.foldl (fun acc e =>
    match placeItem acc e.1 e.2.1 e.2.2 with
    | .ok p => p.1
    | .error _ => acc) b

/-- A sequence of inventory operations applied by a caller that catches the
inventory exceptions. -/
def invApplyAll (inv : Inv) (ops : List InvOp) : Inv :=
  ops.foldl invApply inv

/-- The square of offsets `[-radius, radius] × [-radius, radius]` in
row-major order — the spec-side enumeration for `Game.neighbors`. -/
def squareOffsets (radius : Int) : List (Int × Int) :=
  (offsetRange radius).foldr
    (fun x acc => ((offsetRange radius).map (fun y => (x, y))) ++ acc) []

/-- The spec-side reading of `Game.neighbors`: the non-void items of the
in-bounds cells of the Chebyshev square around `pos`, excluding the center,
in row-major order, with ordinary (non-wrapping) indexing. -/
def chebyshevItems (b : Board) (pos : Int × Int) (radius : Int) : List Item :=
  (squareOffsets radius).filterMap (fun d =>
    if d.1 = (0 : Int) ∧ d.2 = (0 : Int) then none
    else
      let tx := pos.1 + d.1
      let ty := pos.2 + d.2
      if 0 ≤ tx ∧ tx < (b.height : Int) ∧ 0 ≤ ty ∧ ty < (b.width : Int) then
        match cellAt b tx.toNat ty.toNat with
        | some it => if it.core.kind = .void then none else some it
        | none => none
      else none)

/-- Door/Player board of the spec's overlap-restore scenario (5×5, Door at
(2,2), Player at (2,1)). -/
def doorScene : Board :=
  placeAll (mkBoard "B" 5 5 " ") [(mkDoor 2, 2, 2), (mkPlayer 1 none, 2, 1)]

/-- The player object of `doorScene` (position stored by `place_item`). -/
def doorScenePlayer : Item := reposition (mkPlayer 1 none) 2 1

/-- The state of `doorScene` after the first `move(player, RIGHT, 1)`. -/
def doorScene2 : Board :=
  match moveSimple doorScene doorScenePlayer .right 1 with
  | .ok s => s.1
  | .error _ => doorScene

/-- The player object after the first move of the door scenario. -/
def doorScene2Player : Item :=
  match moveSimple doorScene doorScenePlayer .right 1 with
  | .ok s => s.2
  | .error _ => doorScenePlayer

/-- Wall-blocks board of the spec scenario (5×5, Wall at (0,1), Player at
(0,0)). -/
def wallScene : Board :=
  placeAll (mkBoard "B" 5 5 " ") [(mkWall 3, 0, 1), (mkPlayer 1 none, 0, 0)]

/-- The player object of `wallScene`. -/
def wallScenePlayer : Item := reposition (mkPlayer 1 none) 0 0

/-- A zero-capacity inventory. -/
def fullInv : Inv := { maxSize := 0, items := [] }

/-- Board with a Treasure next to a Player whose inventory is full (2×2). -/
def fullPickScene : Board :=
  placeAll (mkBoard "B" 2 2 " ")
    [(mkTreasure 4 1 50, 0, 1), (mkPlayer 1 (some fullInv), 0, 0)]

/-- The player object of `fullPickScene`. -/
def fullPickPlayer : Item := reposition (mkPlayer 1 (some fullInv)) 0 0

/-- Pickup board of the spec scenario: Treasure(value 50, space 2) at
(0,1), Player with an empty Inventory(max 10) at (0,0). -/
def pickScene : Board :=
  placeAll (mkBoard "B" 5 5 " ")
    [(mkTreasure 4 2 50, 0, 1), (mkPlayer 1 (some { maxSize := 10, items := [] }), 0, 0)]

/-- The player object of `pickScene`. -/
def pickScenePlayer : Item :=
  reposition (mkPlayer 1 (some { maxSize := 10, items := [] })) 0 0

/-- A 2×2 board where a Player was placed on top of a Door by `place_item`
(the door is parked in the overlap layer). -/
def stompScene : Board :=
  placeAll (mkBoard "B" 2 2 " ") [(mkDoor 2, 0, 0), (mkPlayer 1 none, 0, 0)]

/-- The game of the projectile-collision scenario: 5×5 board, Wall at
(1,2), a running RIGHT-bound directional projectile (range 2, step 1) at
(1,1). -/
def projScene : Game :=
  mkGame (placeAll (mkBoard "B" 5 5 " ")
      [(mkWall 3, 1, 2), (mkProj 7 2 1 .right, 1, 1)])
    [reposition (mkProj 7 2 1 .right) 1 1]

/-- The 10×10 three-Wall board of the AoE-on-placement scenario. -/
def aoeScene : Game :=
  mkGame (placeAll (mkBoard "B" 10 10 " ")
      [(mkWall 3, 3, 3), (mkWall 4, 3, 4), (mkWall 5, 4, 3)]) []

/-- 5×5 board with a Wall at (4,0) and a Player at (0,0) — the wrap-around
scenario for `Game.neighbors`. -/
def wrapScene : Game :=
  mkGame (placeAll (mkBoard "B" 5 5 " ")
      [(mkWall 3, 4, 0), (mkPlayer 1 none, 0, 0)]) []

/-- The player object of `wrapScene`. -/
def wrapScenePlayer : Item := reposition (mkPlayer 1 none) 0 0

/-- 5×5 board with a Wall at (1,2) and a Player at (2,2) — a no-wrap
scenario for `Game.neighbors`. -/
def midScene : Game :=
  mkGame (placeAll (mkBoard "B" 5 5 " ")
      [(mkWall 3, 1, 2), (mkPlayer 1 none, 2, 2)]) []

/-- The player object of `midScene`. -/
def midScenePlayer : Item := reposition (mkPlayer 1 none) 2 2

/-- A two-level game: level 1 holds the empty board "A" (the current
level), level 2 holds board "BB" with a Wall at (0,0). -/
def twoLevelGame : Game :=
  { levels :=
      [(1, { board := mkBoard "A" 5 5 " ", projectiles := [] }),
       (2, { board := placeAll (mkBoard "BB" 5 5 " ") [(mkWall 3, 0, 0)]
             projectiles := [] })]
    currentLevel := 1
    player := none
    state := .running
    hits := [] }

/-! ## Lemmas: the Python list model -/

theorem pyIdx_nonneg {n : Nat} {i : Int} (h0 : 0 ≤ i) (h : i < (n : Int)) :
    pyIdx n i = some i.toNat := by
  simp [pyIdx, h0, h]

theorem pyGet_nonneg {α : Type} {l : List α} {i : Int} (h0 : 0 ≤ i)
    (h : i < (l.length : Int)) : pyGet l i = l.get? i.toNat := by
  simp [pyGet, pyIdx_nonneg h0 h]

theorem pySet_nonneg {α : Type} {l : List α} {i : Int} (a : α) (h0 : 0 ≤ i)
    (h : i < (l.length : Int)) : pySet l i a = some (l.set i.toNat a) := by
  simp [pySet, pyIdx_nonneg h0 h]

/-! ## Lemmas: matrix and overlap-layer access in normal form -/

theorem matGet_eq_cell {b : Board} {r c : Int} {it : Item} (ws : WellSized b)
    (h0r : 0 ≤ r) (hr : r < (b.height : Int)) (h0c : 0 ≤ c) (hc : c < (b.width : Int))
    (hcell : cellAt b r.toNat c.toNat = some it) :
    matGet b r c = .ok it := by
  obtain ⟨hm, hrow, _, _⟩ := ws
  unfold matGet
  rw [pyGet_nonneg h0r (by rw [hm]; exact hr)]
  unfold cellAt at hcell
  cases hrowq : b.matrix.get? r.toNat with
  | none => rw [hrowq] at hcell; simp at hcell
  | some row =>
    rw [hrowq] at hcell
    dsimp only at hcell
    dsimp only
    rw [pyGet_nonneg h0c (by rw [hrow row (List.get?_mem hrowq)]; exact hc)]
    rw [hcell]

theorem cellAt_of_lt {b : Board} {rn cn : Nat} (ws : WellSized b)
    (hr : rn < b.height) (hc : cn < b.width) :
    ∃ it, cellAt b rn cn = some it := by
  obtain ⟨hm, hrow, _, _⟩ := ws
  have hlt : rn < b.matrix.length := by omega
  obtain ⟨row, hrowq⟩ : ∃ row, b.matrix.get? rn = some row :=
    ⟨_, List.get?_eq_get hlt⟩
  have hrl : row.length = b.width := hrow row (List.get?_mem hrowq)
  have hclt : cn < row.length := by omega
  exact ⟨_, by unfold cellAt; rw [hrowq]; exact List.get?_eq_get hclt⟩

theorem matSet_ok {b : Board} {r c : Int} (ws : WellSized b) (h0r : 0 ≤ r)
    (hr : r < (b.height : Int)) (h0c : 0 ≤ c) (hc : c < (b.width : Int)) (it : Item) :
    matSet b r c it = .ok (setCell b r.toNat c.toNat it) := by
  obtain ⟨hm, hrow, _, _⟩ := ws
  unfold matSet setCell
  rw [pyGet_nonneg h0r (by rw [hm]; exact hr)]
  have hlt : r.toNat < b.matrix.length := by omega
  obtain ⟨row, hrowq⟩ : ∃ row, b.matrix.get? r.toNat = some row :=
    ⟨_, List.get?_eq_get hlt⟩
  rw [hrowq]
  dsimp only
  have hrl : row.length = b.width := hrow row (List.get?_mem hrowq)
  rw [pySet_nonneg it h0c (by rw [hrl]; exact hc)]
  dsimp only
  rw [pySet_nonneg _ h0r (by rw [hm]; exact hr)]
  rfl

theorem overGet_ok {b : Board} {r c : Int} (ws : WellSized b) (h0r : 0 ≤ r)
    (hr : r < (b.height : Int)) (h0c : 0 ≤ c) (hc : c < (b.width : Int)) :
    overGet b r c = .ok (parkAt b r.toNat c.toNat) := by
  obtain ⟨_, _, hm, hrow⟩ := ws
  unfold overGet parkAt
  rw [pyGet_nonneg h0r (by rw [hm]; exact hr)]
  have hlt : r.toNat < b.overlapped.length := by omega
  obtain ⟨row, hrowq⟩ : ∃ row, b.overlapped.get? r.toNat = some row :=
    ⟨_, List.get?_eq_get hlt⟩
  rw [hrowq]
  dsimp only
  have hrl : row.length = b.width := hrow row (List.get?_mem hrowq)
  have hclt : c.toNat < row.length := by omega
  rw [pyGet_nonneg h0c (by rw [hrl]; exact hc)]
  rw [List.get?_eq_get hclt]
  rfl

theorem overSet_ok {b : Board} {r c : Int} (ws : WellSized b) (h0r : 0 ≤ r)
    (hr : r < (b.height : Int)) (h0c : 0 ≤ c) (hc : c < (b.width : Int))
    (v : Option Item) :
    overSet b r c v = .ok (setPark b r.toNat c.toNat v) := by
  obtain ⟨_, _, hm, hrow⟩ := ws
  unfold overSet setPark
  rw [pyGet_nonneg h0r (by rw [hm]; exact hr)]
  have hlt : r.toNat < b.overlapped.length := by omega
  obtain ⟨row, hrowq⟩ : ∃ row, b.overlapped.get? r.toNat = some row :=
    ⟨_, List.get?_eq_get hlt⟩
  rw [hrowq]
  dsimp only
  have hrl : row.length = b.width := hrow row (List.get?_mem hrowq)
  rw [pySet_nonneg v h0c (by rw [hrl]; exact hc)]
  dsimp only
  rw [pySet_nonneg _ h0r (by rw [hm]; exact hr)]
  rfl

/-! ## Lemmas: cell updates in normal form -/

theorem cellAt_setCell_self {b : Board} {rn cn : Nat} (ws : WellSized b)
    (hr : rn < b.height) (hc : cn < b.width) (it : Item) :
    cellAt (setCell b rn cn it) rn cn = some it := by
  obtain ⟨hm, hrow, _, _⟩ := ws
  have hlt : rn < b.matrix.length := by omega
  obtain ⟨row, hrowq⟩ : ∃ row, b.matrix.get? rn = some row :=
    ⟨_, List.get?_eq_get hlt⟩
  have hrl : row.length = b.width := hrow row (List.get?_mem hrowq)
  unfold cellAt setCell
  dsimp only
  rw [List.get?_set_eq_of_lt _ hlt]
  rw [hrowq]
  dsimp only [Option.getD_some]
  rw [List.get?_set_eq_of_lt _ (by omega)]

theorem cellAt_setCell_ne {b : Board} {rn cn rn' cn' : Nat} (it : Item)
    (h : ¬(rn' = rn ∧ cn' = cn)) :
    cellAt (setCell b rn cn it) rn' cn' = cellAt b rn' cn' := by
  unfold cellAt setCell
  dsimp only
  by_cases hrr : rn = rn'
  · subst hrr
    have hcc : cn ≠ cn' := fun hh => h ⟨rfl, hh.symm⟩
    rw [List.get?_set_eq _ _]
    cases hq : b.matrix.get? rn with
    | none => simp
    | some row =>
      simp only [Option.map_eq_map, Option.map_some', Option.getD_some]
      rw [List.get?_set_ne _ _ hcc]
  · rw [List.get?_set_ne _ _ hrr]

theorem parkAt_setPark_self {b : Board} {rn cn : Nat} (ws : WellSized b)
    (hr : rn < b.height) (hc : cn < b.width) (v : Option Item) :
    parkAt (setPark b rn cn v) rn cn = v := by
  obtain ⟨_, _, hm, hrow⟩ := ws
  have hlt : rn < b.overlapped.length := by omega
  obtain ⟨row, hrowq⟩ : ∃ row, b.overlapped.get? rn = some row :=
    ⟨_, List.get?_eq_get hlt⟩
  have hrl : row.length = b.width := hrow row (List.get?_mem hrowq)
  unfold parkAt setPark
  dsimp only
  rw [List.get?_set_eq_of_lt _ hlt]
  rw [hrowq]
  dsimp only [Option.getD_some]
  rw [List.get?_set_eq_of_lt _ (by omega)]
  rfl

theorem parkAt_setPark_ne {b : Board} {rn cn rn' cn' : Nat} (v : Option Item)
    (h : ¬(rn' = rn ∧ cn' = cn)) :
    parkAt (setPark b rn cn v) rn' cn' = parkAt b rn' cn' := by
  unfold parkAt setPark
  dsimp only
  by_cases hrr : rn = rn'
  · subst hrr
    have hcc : cn ≠ cn' := fun hh => h ⟨rfl, hh.symm⟩
    rw [List.get?_set_eq _ _]
    cases hq : b.overlapped.get? rn with
    | none => simp
    | some row =>
      simp only [Option.map_eq_map, Option.map_some', Option.getD_some]
      rw [List.get?_set_ne _ _ hcc]
  · rw [List.get?_set_ne _ _ hrr]

theorem parkAt_setCell (b : Board) (rn cn : Nat) (it : Item) (rn' cn' : Nat) :
    parkAt (setCell b rn cn it) rn' cn' = parkAt b rn' cn' := rfl

theorem cellAt_setPark (b : Board) (rn cn : Nat) (v : Option Item) (rn' cn' : Nat) :
    cellAt (setPark b rn cn v) rn' cn' = cellAt b rn' cn' := rfl

theorem wellSized_setCell {b : Board} (ws : WellSized b) {rn cn : Nat}
    (hr : rn < b.height) (it : Item) : WellSized (setCell b rn cn it) := by
  obtain ⟨hm, hrow, ho, horow⟩ := ws
  have hlt : rn < b.matrix.length := by omega
  obtain ⟨row, hrowq⟩ : ∃ row, b.matrix.get? rn = some row :=
    ⟨_, List.get?_eq_get hlt⟩
  refine ⟨?_, ?_, ho, horow⟩
  · simp [setCell, List.length_set, hm]
  · intro row' hmem
    rcases List.mem_or_eq_of_mem_set hmem with h | h
    · exact hrow row' h
    · subst h
      rw [hrowq]
      dsimp only [Option.getD_some]
      rw [List.length_set]
      exact hrow row (List.get?_mem hrowq)

theorem wellSized_setPark {b : Board} (ws : WellSized b) {rn cn : Nat}
    (hr : rn < b.height) (v : Option Item) : WellSized (setPark b rn cn v) := by
  obtain ⟨hm, hrow, ho, horow⟩ := ws
  have hlt : rn < b.overlapped.length := by omega
  obtain ⟨row, hrowq⟩ : ∃ row, b.overlapped.get? rn = some row :=
    ⟨_, List.get?_eq_get hlt⟩
  refine ⟨hm, hrow, ?_, ?_⟩
  · simp [setPark, List.length_set, ho]
  · intro row' hmem
    rcases List.mem_or_eq_of_mem_set hmem with h | h
    · exact horow row' h
    · subst h
      rw [hrowq]
      dsimp only [Option.getD_some]
      rw [List.length_set]
      exact horow row (List.get?_mem hrowq)

/-! ## Lemmas: monadic glue and frame conditions -/

theorem bindOk {α β : Type} (x : α) (f : α → Except PyErr β) :
    (Except.ok x : Except PyErr α) >>= f = f x := rfl

theorem pureBind {α β : Type} (x : α) (f : α → Except PyErr β) :
    (pure x : Except PyErr α) >>= f = f x := rfl

@[simp] theorem setCell_height (b : Board) (rn cn : Nat) (it : Item) :
    (setCell b rn cn it).height = b.height := rfl

@[simp] theorem setCell_width (b : Board) (rn cn : Nat) (it : Item) :
    (setCell b rn cn it).width = b.width := rfl

@[simp] theorem setCell_movables (b : Board) (rn cn : Nat) (it : Item) :
    (setCell b rn cn it).movables = b.movables := rfl

@[simp] theorem setCell_immovables (b : Board) (rn cn : Nat) (it : Item) :
    (setCell b rn cn it).immovables = b.immovables := rfl

@[simp] theorem setCell_overlapped (b : Board) (rn cn : Nat) (it : Item) :
    (setCell b rn cn it).overlapped = b.overlapped := rfl

@[simp] theorem setCell_voidModel (b : Board) (rn cn : Nat) (it : Item) :
    (setCell b rn cn it).uiBoardVoidCell = b.uiBoardVoidCell := rfl

@[simp] theorem setPark_height (b : Board) (rn cn : Nat) (v : Option Item) :
    (setPark b rn cn v).height = b.height := rfl

@[simp] theorem setPark_width (b : Board) (rn cn : Nat) (v : Option Item) :
    (setPark b rn cn v).width = b.width := rfl

@[simp] theorem setPark_movables (b : Board) (rn cn : Nat) (v : Option Item) :
    (setPark b rn cn v).movables = b.movables := rfl

@[simp] theorem setPark_immovables (b : Board) (rn cn : Nat) (v : Option Item) :
    (setPark b rn cn v).immovables = b.immovables := rfl

@[simp] theorem setPark_matrix (b : Board) (rn cn : Nat) (v : Option Item) :
    (setPark b rn cn v).matrix = b.matrix := rfl

@[simp] theorem setPark_voidModel (b : Board) (rn cn : Nat) (v : Option Item) :
    (setPark b rn cn v).uiBoardVoidCell = b.uiBoardVoidCell := rfl

@[simp] theorem unregister_height (b : Board) (occ : Item) :
    (unregister b occ).height = b.height := by
  unfold unregister; split <;> (try split) <;> rfl

@[simp] theorem unregister_width (b : Board) (occ : Item) :
    (unregister b occ).width = b.width := by
  unfold unregister; split <;> (try split) <;> rfl

@[simp] theorem unregister_matrix (b : Board) (occ : Item) :
    (unregister b occ).matrix = b.matrix := by
  unfold unregister; split <;> (try split) <;> rfl

@[simp] theorem unregister_overlapped (b : Board) (occ : Item) :
    (unregister b occ).overlapped = b.overlapped := by
  unfold unregister; split <;> (try split) <;> rfl

@[simp] theorem unregister_voidModel (b : Board) (occ : Item) :
    (unregister b occ).uiBoardVoidCell = b.uiBoardVoidCell := by
  unfold unregister; split <;> (try split) <;> rfl

theorem generateVoidCell_unregister (b : Board) (occ : Item) :
    generateVoidCell (unregister b occ) = generateVoidCell b := by
  unfold unregister; split <;> (try split) <;> rfl

theorem parkAt_unregister (b : Board) (occ : Item) (rn cn : Nat) :
    parkAt (unregister b occ) rn cn = parkAt b rn cn := by
  unfold unregister; split <;> (try split) <;> rfl

theorem cellAt_unregister (b : Board) (occ : Item) (rn cn : Nat) :
    cellAt (unregister b occ) rn cn = cellAt b rn cn := by
  unfold unregister; split <;> (try split) <;> rfl

theorem wellSized_unregister {b : Board} (ws : WellSized b) (occ : Item) :
    WellSized (unregister b occ) := by
  unfold unregister; split <;> (try split) <;> exact ws

@[simp] theorem regSets_height (b : Board) (it : Item) :
    (regSets b it).height = b.height := by
  unfold regSets; split <;> (try split) <;> rfl

@[simp] theorem regSets_width (b : Board) (it : Item) :
    (regSets b it).width = b.width := by
  unfold regSets; split <;> (try split) <;> rfl

@[simp] theorem regSets_matrix (b : Board) (it : Item) :
    (regSets b it).matrix = b.matrix := by
  unfold regSets; split <;> (try split) <;> rfl

@[simp] theorem regSets_overlapped (b : Board) (it : Item) :
    (regSets b it).overlapped = b.overlapped := by
  unfold regSets; split <;> (try split) <;> rfl

@[simp] theorem regSets_voidModel (b : Board) (it : Item) :
    (regSets b it).uiBoardVoidCell = b.uiBoardVoidCell := by
  unfold regSets; split <;> (try split) <;> rfl

theorem cellAt_regSets (b : Board) (it : Item) (rn cn : Nat) :
    cellAt (regSets b it) rn cn = cellAt b rn cn := by
  unfold regSets; split <;> (try split) <;> rfl

theorem parkAt_regSets (b : Board) (it : Item) (rn cn : Nat) :
    parkAt (regSets b it) rn cn = parkAt b rn cn := by
  unfold regSets; split <;> (try split) <;> rfl

theorem wellSized_regSets {b : Board} (ws : WellSized b) (it : Item) :
    WellSized (regSets b it) := by
  unfold regSets; split <;> (try split) <;> exact ws

theorem cellAt_parkIf (b : Board) (ex : Item) (rn cn : Nat) (rn' cn' : Nat) :
    cellAt (parkIf b ex rn cn) rn' cn' = cellAt b rn' cn' := by
  unfold parkIf; split <;> rfl

@[simp] theorem parkIf_height (b : Board) (ex : Item) (rn cn : Nat) :
    (parkIf b ex rn cn).height = b.height := by
  unfold parkIf; split <;> simp

@[simp] theorem parkIf_width (b : Board) (ex : Item) (rn cn : Nat) :
    (parkIf b ex rn cn).width = b.width := by
  unfold parkIf; split <;> simp

@[simp] theorem parkIf_matrix (b : Board) (ex : Item) (rn cn : Nat) :
    (parkIf b ex rn cn).matrix = b.matrix := by
  unfold parkIf; split <;> simp

@[simp] theorem parkIf_voidModel (b : Board) (ex : Item) (rn cn : Nat) :
    (parkIf b ex rn cn).uiBoardVoidCell = b.uiBoardVoidCell := by
  unfold parkIf; split <;> simp

theorem wellSized_parkIf {b : Board} (ws : WellSized b) {rn : Nat}
    (hr : rn < b.height) (ex : Item) (cn : Nat) : WellSized (parkIf b ex rn cn) := by
  unfold parkIf; split
  · exact wellSized_setPark ws hr _
  · exact ws

/-! ## Lemmas: `place_item` and `clear_cell` in normal form -/

theorem placeItem_ok {b : Board} {ex : Item} (it : Item) {r c : Int}
    (ws : WellSized b) (h0r : 0 ≤ r) (hr : r < (b.height : Int)) (h0c : 0 ≤ c)
    (hc : c < (b.width : Int)) (hcell : cellAt b r.toNat c.toNat = some ex) :
    placeItem b it r c
      = .ok (placeNorm b ex it r.toNat c.toNat r c, reposition it r c) := by
  unfold placeItem
  rw [if_pos (⟨hr, hc⟩ : r < (b.height : Int) ∧ c < (b.width : Int))]
  rw [matGet_eq_cell ws h0r hr h0c hc hcell]
  rw [bindOk]
  unfold placeNorm parkIf
  by_cases hsave : isImmovableKind ex.core.kind ∧ ex.core.restorable
      ∧ ex.core.overlappable
  · rw [if_pos hsave]
    rw [if_pos hsave]
    rw [overSet_ok ws h0r hr h0c hc, bindOk]
    dsimp only
    have hrs : r < ((setPark b r.toNat c.toNat (some ex)).height : Int) := by
      rw [setPark_height]; exact hr
    have hcs : c < ((setPark b r.toNat c.toNat (some ex)).width : Int) := by
      rw [setPark_width]; exact hc
    rw [matSet_ok (wellSized_setPark ws (by omega) _) h0r hrs h0c hcs, bindOk]
    rfl
  · rw [if_neg hsave]
    rw [if_neg hsave]
    rw [pureBind]
    dsimp only
    rw [matSet_ok ws h0r hr h0c hc, bindOk]
    rfl

theorem clearCell_ok {b : Board} {occ : Item} {r c : Int} (ws : WellSized b)
    (h0r : 0 ≤ r) (hr : r < (b.height : Int)) (h0c : 0 ≤ c) (hc : c < (b.width : Int))
    (hcell : cellAt b r.toNat c.toNat = some occ) :
    clearCell b r c
      = .ok (clearNorm b occ (parkAt b r.toNat c.toNat) r.toNat c.toNat) := by
  have hr' : r < ((unregister b occ).height : Int) := by
    rw [unregister_height]; exact hr
  have hc' : c < ((unregister b occ).width : Int) := by
    rw [unregister_width]; exact hc
  unfold clearCell
  rw [matGet_eq_cell ws h0r hr h0c hc hcell, bindOk]
  dsimp only
  rw [overGet_ok (wellSized_unregister ws occ) h0r hr' h0c hc']
  rw [parkAt_unregister]
  rw [bindOk]
  unfold clearNorm
  cases hpk : parkAt b r.toNat c.toNat with
  | some p =>
    dsimp only
    rw [matSet_ok (wellSized_unregister ws occ) h0r hr' h0c hc', bindOk]
    have hrs : r < ((setCell (unregister b occ) r.toNat c.toNat p).height : Int) := by
      rw [setCell_height]; exact hr'
    have hcs : c < ((setCell (unregister b occ) r.toNat c.toNat p).width : Int) := by
      rw [setCell_width]; exact hc'
    rw [overSet_ok (wellSized_setCell (wellSized_unregister ws occ) (by omega) p)
        h0r hrs h0c hcs]
  | none =>
    dsimp only
    rw [generateVoidCell_unregister]
    rw [matSet_ok (wellSized_unregister ws occ) h0r hr' h0c hc']

/-! ## Lemmas: activation, placeNorm and clearNorm effects -/

@[simp] theorem activateIf_height (b : Board) (mv ds : PItem) :
    (activateIf b mv ds).height = b.height := by
  unfold activateIf; split <;> rfl

@[simp] theorem activateIf_width (b : Board) (mv ds : PItem) :
    (activateIf b mv ds).width = b.width := by
  unfold activateIf; split <;> rfl

@[simp] theorem activateIf_matrix (b : Board) (mv ds : PItem) :
    (activateIf b mv ds).matrix = b.matrix := by
  unfold activateIf; split <;> rfl

@[simp] theorem activateIf_overlapped (b : Board) (mv ds : PItem) :
    (activateIf b mv ds).overlapped = b.overlapped := by
  unfold activateIf; split <;> rfl

@[simp] theorem activateIf_movables (b : Board) (mv ds : PItem) :
    (activateIf b mv ds).movables = b.movables := by
  unfold activateIf; split <;> rfl

@[simp] theorem activateIf_immovables (b : Board) (mv ds : PItem) :
    (activateIf b mv ds).immovables = b.immovables := by
  unfold activateIf; split <;> rfl

@[simp] theorem activateIf_voidModel (b : Board) (mv ds : PItem) :
    (activateIf b mv ds).uiBoardVoidCell = b.uiBoardVoidCell := by
  unfold activateIf; split <;> rfl

theorem cellAt_activateIf (b : Board) (mv ds : PItem) (rn cn : Nat) :
    cellAt (activateIf b mv ds) rn cn = cellAt b rn cn := by
  unfold activateIf; split <;> rfl

theorem parkAt_activateIf (b : Board) (mv ds : PItem) (rn cn : Nat) :
    parkAt (activateIf b mv ds) rn cn = parkAt b rn cn := by
  unfold activateIf; split <;> rfl

theorem wellSized_activateIf {b : Board} (ws : WellSized b) (mv ds : PItem) :
    WellSized (activateIf b mv ds) := by
  unfold activateIf; split <;> exact ws

theorem generateVoidCell_activateIf (b : Board) (mv ds : PItem) :
    generateVoidCell (activateIf b mv ds) = generateVoidCell b := by
  unfold activateIf; split <;> rfl

theorem regSets_movables_eq (b : Board) (it : Item) :
    (regSets b it).movables
      = if isMovableKind it.core.kind then insert it.core.id b.movables
        else b.movables := by
  unfold regSets
  by_cases h : isMovableKind it.core.kind = true
  · rw [if_pos h, if_pos h]
  · rw [if_neg h, if_neg h]
    split <;> rfl

theorem regSets_immovables_eq (b : Board) (it : Item) :
    (regSets b it).immovables
      = if isMovableKind it.core.kind then b.immovables
        else if isImmovableKind it.core.kind then insert it.core.id b.immovables
        else b.immovables := by
  unfold regSets
  by_cases h : isMovableKind it.core.kind = true
  · rw [if_pos h, if_pos h]
  · rw [if_neg h, if_neg h]
    split <;> rfl

theorem unregister_movables_eq (b : Board) (occ : Item) :
    (unregister b occ).movables
      = if occ.core.id ∈ b.movables then b.movables.erase occ.core.id
        else b.movables := by
  unfold unregister
  by_cases h : occ.core.id ∈ b.movables
  · rw [if_pos h, if_pos h]
  · rw [if_neg h, if_neg h]
    split <;> rfl

theorem unregister_immovables_eq (b : Board) (occ : Item) :
    (unregister b occ).immovables
      = if occ.core.id ∈ b.movables then b.immovables
        else if occ.core.id ∈ b.immovables then b.immovables.erase occ.core.id
        else b.immovables := by
  unfold unregister
  by_cases h : occ.core.id ∈ b.movables
  · rw [if_pos h, if_pos h]
  · rw [if_neg h, if_neg h]
    split <;> rfl

@[simp] theorem placeNorm_height (b : Board) (ex it : Item) (rn cn : Nat)
    (r c : Int) : (placeNorm b ex it rn cn r c).height = b.height := by
  unfold placeNorm parkIf
  split <;> simp

@[simp] theorem placeNorm_width (b : Board) (ex it : Item) (rn cn : Nat)
    (r c : Int) : (placeNorm b ex it rn cn r c).width = b.width := by
  unfold placeNorm parkIf
  split <;> simp

@[simp] theorem placeNorm_voidModel (b : Board) (ex it : Item) (rn cn : Nat)
    (r c : Int) : (placeNorm b ex it rn cn r c).uiBoardVoidCell = b.uiBoardVoidCell := by
  unfold placeNorm parkIf
  split <;> simp

theorem wellSized_placeNorm {b : Board} (ws : WellSized b) {rn : Nat}
    (hr : rn < b.height) (ex it : Item) (cn : Nat) (r c : Int) :
    WellSized (placeNorm b ex it rn cn r c) := by
  unfold placeNorm
  exact wellSized_regSets (wellSized_setCell (wellSized_parkIf ws hr ex cn)
    (by simpa using hr) _) _

theorem cellAt_placeNorm_self {b : Board} (ws : WellSized b) {rn cn : Nat}
    (hr : rn < b.height) (hc : cn < b.width) (ex it : Item) (r c : Int) :
    cellAt (placeNorm b ex it rn cn r c) rn cn = some (reposition it r c) := by
  unfold placeNorm
  rw [cellAt_regSets]
  have hr' : rn < (parkIf b ex rn cn).height := by simpa using hr
  have hc' : cn < (parkIf b ex rn cn).width := by simpa using hc
  exact cellAt_setCell_self (wellSized_parkIf ws hr ex cn) hr' hc' _

theorem cellAt_placeNorm_ne {b : Board} {rn cn rn' cn' : Nat}
    (h : ¬(rn' = rn ∧ cn' = cn)) (ex it : Item) (r c : Int) :
    cellAt (placeNorm b ex it rn cn r c) rn' cn' = cellAt b rn' cn' := by
  unfold placeNorm
  rw [cellAt_regSets, cellAt_setCell_ne _ h, cellAt_parkIf]

theorem parkAt_placeNorm_saved {b : Board} (ws : WellSized b) {rn cn : Nat}
    (hr : rn < b.height) (hc : cn < b.width) {ex : Item}
    (hsave : isImmovableKind ex.core.kind ∧ ex.core.restorable
      ∧ ex.core.overlappable) (it : Item) (r c : Int) :
    parkAt (placeNorm b ex it rn cn r c) rn cn = some ex := by
  unfold placeNorm parkIf
  rw [if_pos hsave, parkAt_regSets, parkAt_setCell]
  exact parkAt_setPark_self ws hr hc _

theorem parkAt_placeNorm_nosave {b : Board} {rn cn : Nat} {ex : Item}
    (hsave : ¬(isImmovableKind ex.core.kind ∧ ex.core.restorable
      ∧ ex.core.overlappable)) (it : Item) (r c : Int) (rn' cn' : Nat) :
    parkAt (placeNorm b ex it rn cn r c) rn' cn' = parkAt b rn' cn' := by
  unfold placeNorm parkIf
  rw [if_neg hsave, parkAt_regSets, parkAt_setCell]

theorem parkAt_placeNorm_ne {b : Board} {rn cn rn' cn' : Nat}
    (h : ¬(rn' = rn ∧ cn' = cn)) (ex it : Item) (r c : Int) :
    parkAt (placeNorm b ex it rn cn r c) rn' cn' = parkAt b rn' cn' := by
  unfold placeNorm parkIf
  rw [parkAt_regSets, parkAt_setCell]
  split
  · exact parkAt_setPark_ne _ h
  · rfl

theorem generateVoidCell_placeNorm (b : Board) (ex it : Item) (rn cn : Nat)
    (r c : Int) : generateVoidCell (placeNorm b ex it rn cn r c) = generateVoidCell b := by
  unfold generateVoidCell
  rw [placeNorm_voidModel]

@[simp] theorem clearNorm_height (b : Board) (occ : Item) (pk : Option Item)
    (rn cn : Nat) : (clearNorm b occ pk rn cn).height = b.height := by
  unfold clearNorm
  cases pk <;> simp

@[simp] theorem clearNorm_width (b : Board) (occ : Item) (pk : Option Item)
    (rn cn : Nat) : (clearNorm b occ pk rn cn).width = b.width := by
  unfold clearNorm
  cases pk <;> simp

@[simp] theorem clearNorm_voidModel (b : Board) (occ : Item) (pk : Option Item)
    (rn cn : Nat) : (clearNorm b occ pk rn cn).uiBoardVoidCell = b.uiBoardVoidCell := by
  unfold clearNorm
  cases pk <;> simp

theorem wellSized_clearNorm {b : Board} (ws : WellSized b) {rn : Nat}
    (hr : rn < b.height) (occ : Item) (pk : Option Item) (cn : Nat) :
    WellSized (clearNorm b occ pk rn cn) := by
  unfold clearNorm
  cases pk with
  | some p =>
    exact wellSized_setPark (wellSized_setCell (wellSized_unregister ws occ)
      (by simpa using hr) p) (by simpa using hr) none
  | none =>
    exact wellSized_setCell (wellSized_unregister ws occ) (by simpa using hr) _

theorem cellAt_clearNorm_self {b : Board} (ws : WellSized b) {rn cn : Nat}
    (hr : rn < b.height) (hc : cn < b.width) (occ : Item) (pk : Option Item) :
    cellAt (clearNorm b occ pk rn cn) rn cn
      = some (pk.getD (generateVoidCell b)) := by
  unfold clearNorm
  cases pk with
  | some p =>
    rw [cellAt_setPark]
    exact cellAt_setCell_self (wellSized_unregister ws occ) (by simpa using hr)
      (by simpa using hc) _
  | none =>
    exact cellAt_setCell_self (wellSized_unregister ws occ) (by simpa using hr)
      (by simpa using hc) _

theorem cellAt_clearNorm_ne {b : Board} {rn cn rn' cn' : Nat}
    (h : ¬(rn' = rn ∧ cn' = cn)) (occ : Item) (pk : Option Item) :
    cellAt (clearNorm b occ pk rn cn) rn' cn' = cellAt b rn' cn' := by
  unfold clearNorm
  cases pk with
  | some p => rw [cellAt_setPark, cellAt_setCell_ne _ h, cellAt_unregister]
  | none => rw [cellAt_setCell_ne _ h, cellAt_unregister]

theorem parkAt_clearNorm_self {b : Board} (ws : WellSized b) {rn cn : Nat}
    (hr : rn < b.height) (hc : cn < b.width) (occ : Item) (pk : Option Item) :
    parkAt (clearNorm b occ pk rn cn) rn cn
      = if pk.isSome then none else parkAt b rn cn := by
  unfold clearNorm
  cases pk with
  | some p =>
    simp only [Option.isSome_some, if_pos]
    exact parkAt_setPark_self (wellSized_setCell (wellSized_unregister ws occ)
      (by simpa using hr) p) (by simpa using hr) (by simpa using hc) none
  | none =>
    simp only [Option.isSome_none, Bool.false_eq_true, if_false]
    rw [parkAt_setCell, parkAt_unregister]

theorem parkAt_clearNorm_ne {b : Board} {rn cn rn' cn' : Nat}
    (h : ¬(rn' = rn ∧ cn' = cn)) (occ : Item) (pk : Option Item) :
    parkAt (clearNorm b occ pk rn cn) rn' cn' = parkAt b rn' cn' := by
  unfold clearNorm
  cases pk with
  | some p => rw [parkAt_setPark_ne _ h, parkAt_setCell, parkAt_unregister]
  | none => rw [parkAt_setCell, parkAt_unregister]

/-! ## Lemmas: wrapped (negative) Python indexing -/

theorem pyIdx_eq_wrap {n : Nat} {i : Int} (h1 : -(n : Int) ≤ i) (h2 : i < (n : Int)) :
    pyIdx n i = some (wrapIdx n i) := by
  unfold pyIdx wrapIdx
  by_cases h0 : 0 ≤ i
  · rw [if_pos ⟨h0, h2⟩, if_pos h0]
  · rw [if_neg (fun hh => h0 hh.1), if_pos ⟨h1, by omega⟩, if_neg h0]

theorem wrapIdx_lt {n : Nat} {i : Int} (h1 : -(n : Int) ≤ i) (h2 : i < (n : Int)) :
    wrapIdx n i < n := by
  unfold wrapIdx
  split <;> omega

theorem pyGet_wrap {α : Type} {l : List α} {i : Int} (h1 : -(l.length : Int) ≤ i)
    (h2 : i < (l.length : Int)) : pyGet l i = l.get? (wrapIdx l.length i) := by
  simp [pyGet, pyIdx_eq_wrap h1 h2]

theorem pySet_wrap {α : Type} {l : List α} {i : Int} (a : α)
    (h1 : -(l.length : Int) ≤ i) (h2 : i < (l.length : Int)) :
    pySet l i a = some (l.set (wrapIdx l.length i) a) := by
  simp [pySet, pyIdx_eq_wrap h1 h2]

theorem pyGet_wrapAt {α : Type} {l : List α} {n : Nat} (hn : l.length = n)
    {i : Int} (h1 : -(n : Int) ≤ i) (h2 : i < (n : Int)) :
    pyGet l i = l.get? (wrapIdx n i) := by
  subst hn; exact pyGet_wrap h1 h2

theorem pySet_wrapAt {α : Type} {l : List α} {n : Nat} (hn : l.length = n)
    (a : α) {i : Int} (h1 : -(n : Int) ≤ i) (h2 : i < (n : Int)) :
    pySet l i a = some (l.set (wrapIdx n i) a) := by
  subst hn; exact pySet_wrap a h1 h2

theorem matGet_wrap {b : Board} {r c : Int} {it : Item} (ws : WellSized b)
    (h1r : -(b.height : Int) ≤ r) (hr : r < (b.height : Int))
    (h1c : -(b.width : Int) ≤ c) (hc : c < (b.width : Int))
    (hcell : cellAt b (wrapIdx b.height r) (wrapIdx b.width c) = some it) :
    matGet b r c = .ok it := by
  obtain ⟨hm, hrow, _, _⟩ := ws
  unfold matGet
  rw [pyGet_wrapAt hm h1r hr]
  unfold cellAt at hcell
  cases hrowq : b.matrix.get? (wrapIdx b.height r) with
  | none => rw [hrowq] at hcell; simp at hcell
  | some row =>
    rw [hrowq] at hcell
    dsimp only at hcell
    dsimp only
    have hrl : row.length = b.width := hrow row (List.get?_mem hrowq)
    rw [pyGet_wrapAt hrl h1c hc]
    rw [hcell]

theorem matSet_wrap {b : Board} {r c : Int} (ws : WellSized b)
    (h1r : -(b.height : Int) ≤ r) (hr : r < (b.height : Int))
    (h1c : -(b.width : Int) ≤ c) (hc : c < (b.width : Int)) (it : Item) :
    matSet b r c it = .ok (setCell b (wrapIdx b.height r) (wrapIdx b.width c) it) := by
  obtain ⟨hm, hrow, _, _⟩ := ws
  unfold matSet setCell
  rw [pyGet_wrapAt hm h1r hr]
  have hlt : wrapIdx b.height r < b.matrix.length := by
    rw [hm]; exact wrapIdx_lt h1r hr
  obtain ⟨row, hrowq⟩ : ∃ row, b.matrix.get? (wrapIdx b.height r) = some row :=
    ⟨_, List.get?_eq_get hlt⟩
  rw [hrowq]
  dsimp only
  have hrl : row.length = b.width := hrow row (List.get?_mem hrowq)
  rw [pySet_wrapAt hrl it h1c hc]
  dsimp only
  rw [pySet_wrapAt hm _ h1r hr]
  rfl

theorem overSet_wrap {b : Board} {r c : Int} (ws : WellSized b)
    (h1r : -(b.height : Int) ≤ r) (hr : r < (b.height : Int))
    (h1c : -(b.width : Int) ≤ c) (hc : c < (b.width : Int)) (v : Option Item) :
    overSet b r c v = .ok (setPark b (wrapIdx b.height r) (wrapIdx b.width c) v) := by
  obtain ⟨_, _, hm, hrow⟩ := ws
  unfold overSet setPark
  rw [pyGet_wrapAt hm h1r hr]
  have hlt : wrapIdx b.height r < b.overlapped.length := by
    rw [hm]; exact wrapIdx_lt h1r hr
  obtain ⟨row, hrowq⟩ : ∃ row, b.overlapped.get? (wrapIdx b.height r) = some row :=
    ⟨_, List.get?_eq_get hlt⟩
  rw [hrowq]
  dsimp only
  have hrl : row.length = b.width := hrow row (List.get?_mem hrowq)
  rw [pySet_wrapAt hrl v h1c hc]
  dsimp only
  rw [pySet_wrapAt hm _ h1r hr]
  rfl

theorem placeItem_wrap {b : Board} {ex : Item} (it : Item) {r c : Int}
    (ws : WellSized b) (h1r : -(b.height : Int) ≤ r) (hr : r < (b.height : Int))
    (h1c : -(b.width : Int) ≤ c) (hc : c < (b.width : Int))
    (hcell : cellAt b (wrapIdx b.height r) (wrapIdx b.width c) = some ex) :
    placeItem b it r c
      = .ok (placeNorm b ex it (wrapIdx b.height r) (wrapIdx b.width c) r c,
             reposition it r c) := by
  unfold placeItem
  rw [if_pos (⟨hr, hc⟩ : r < (b.height : Int) ∧ c < (b.width : Int))]
  rw [matGet_wrap ws h1r hr h1c hc hcell]
  rw [bindOk]
  unfold placeNorm parkIf
  by_cases hsave : isImmovableKind ex.core.kind ∧ ex.core.restorable
      ∧ ex.core.overlappable
  · rw [if_pos hsave]
    rw [if_pos hsave]
    rw [overSet_wrap ws h1r hr h1c hc, bindOk]
    dsimp only
    have hrs : r < ((setPark b (wrapIdx b.height r) (wrapIdx b.width c) (some ex)).height : Int) := by
      rw [setPark_height]; exact hr
    have hcs : c < ((setPark b (wrapIdx b.height r) (wrapIdx b.width c) (some ex)).width : Int) := by
      rw [setPark_width]; exact hc
    have h1rs : -(((setPark b (wrapIdx b.height r) (wrapIdx b.width c) (some ex)).height : Int)) ≤ r := by
      rw [setPark_height]; exact h1r
    have h1cs : -(((setPark b (wrapIdx b.height r) (wrapIdx b.width c) (some ex)).width : Int)) ≤ c := by
      rw [setPark_width]; exact h1c
    rw [matSet_wrap (wellSized_setPark ws (wrapIdx_lt h1r hr) _) h1rs hrs h1cs hcs,
        bindOk]
    rfl
  · rw [if_neg hsave]
    rw [if_neg hsave]
    rw [pureBind]
    dsimp only
    rw [matSet_wrap ws h1r hr h1c hc, bindOk]
    rfl

theorem matGet_ne_outOfBoard (b : Board) (r c : Int) :
    matGet b r c ≠ .error .outOfBoard := by
  unfold matGet
  cases pyGet b.matrix r with
  | none => simp
  | some row =>
    dsimp only
    cases pyGet row c with
    | none => simp
    | some it => simp

/-! ## Claim C10 -/

/-- C10, counterexample: the claim quantifies over every negative
`row < height`, but `Board.item(-6, 0)` on a 5×5 board raises Python's
`IndexError` instead of returning a wrapped cell — only subscripts down to
`-size` wrap. -/
theorem c10_counterexample :
    boardItem (mkBoard "B" 5 5 " ") (-6) 0 = .error .indexError := by rfl

/-- **C10** (amended: negative subscripts only down to `-height`/`-width`
wrap; below that Python raises `IndexError`).  On a well-sized board, for
`-height ≤ row < height` and `-width ≤ column < width` (in particular for
negative values in that range): `Board.item` raises no out-of-board error
and returns the matrix cell at the wrapped index (−1 denoting the last
row/column), `Board.place_item` accepts the coordinates and writes the item
at the wrapped index, and `PglOutOfBoardBoundException` is raised exactly
for coordinates at or beyond the upper bounds. -/
theorem c10_negative_wrapped_indexing (b : Board) (ws : WellSized b)
    (r c : Int) (itm : Item)
    (h1r : -(b.height : Int) ≤ r) (hr : r < (b.height : Int))
    (h1c : -(b.width : Int) ≤ c) (hc : c < (b.width : Int)) :
    (∀ it, cellAt b (wrapIdx b.height r) (wrapIdx b.width c) = some it →
      boardItem b r c = .ok it)
    ∧ (∀ ex, cellAt b (wrapIdx b.height r) (wrapIdx b.width c) = some ex →
      placeItem b itm r c
        = .ok (placeNorm b ex itm (wrapIdx b.height r) (wrapIdx b.width c) r c,
               reposition itm r c)
      ∧ cellAt (placeNorm b ex itm (wrapIdx b.height r) (wrapIdx b.width c) r c)
          (wrapIdx b.height r) (wrapIdx b.width c) = some (reposition itm r c))
    ∧ (∀ r' c' : Int, boardItem b r' c' = .error .outOfBoard
        ↔ ((b.height : Int) ≤ r' ∨ (b.width : Int) ≤ c')) := by
  refine ⟨?_, ?_, ?_⟩
  · intro it hcell
    unfold boardItem
    rw [if_pos ⟨hr, hc⟩]
    exact matGet_wrap ws h1r hr h1c hc hcell
  · intro ex hcell
    refine ⟨placeItem_wrap itm ws h1r hr h1c hc hcell, ?_⟩
    exact cellAt_placeNorm_self ws (wrapIdx_lt h1r hr) (wrapIdx_lt h1c hc) ex itm r c
  · intro r' c'
    constructor
    · intro h
      by_contra hcon
      unfold boardItem at h
      rw [if_pos (by omega)] at h
      exact matGet_ne_outOfBoard b r' c' h
    · intro h
      unfold boardItem
      rw [if_neg (by omega)]

/-- C10, witness: on a 5×5 board, `item(-1, -1)` returns the cell at
(4, 4). -/
theorem c10_witness :
    boardItem (mkBoard "B" 5 5 " ") (-1) (-1)
      = .ok (generateVoidCell (mkBoard "B" 5 5 " ")) :=
  (c10_negative_wrapped_indexing (mkBoard "B" 5 5 " ") (by decide) (-1) (-1)
    placeholderVoid (by decide) (by decide) (by decide) (by decide)).1 _ (by decide)

/-! ## Claim C7 -/

theorem invSize_append (inv : Inv) (nm : String) (itc : PItem) :
    invSize { inv with items := inv.items ++ [(nm, itc)] }
      = invSize inv + itc.invSpace := by
  simp [invSize]

theorem invSize_filter_le (inv : Inv) (p : String × PItem → Bool) :
    invSize { inv with items := inv.items.filter p } ≤ invSize inv := by
  simp only [invSize]
  induction inv.items with
  | nil => simp
  | cons a l ih =>
    by_cases hpa : p a = true
    · simp only [List.filter_cons, hpa, if_pos, List.map_cons, List.sum_cons]
      omega
    · simp only [List.filter_cons, hpa, List.map_cons, List.sum_cons]
      simp only [Bool.false_eq_true, if_false]
      omega

theorem invAddItem_ok_fields {inv : Inv} {it : PItem} {inv' : Inv}
    (h : invAddItem inv it = .ok inv') :
    inv'.maxSize = inv.maxSize ∧ invSize inv' = invSize inv + it.invSpace
    ∧ invSize inv + it.invSpace ≤ inv.maxSize := by
  unfold invAddItem at h
  by_cases hp : it.pickable = true
  · rw [if_pos hp] at h
    dsimp only at h
    split at h
    · rename_i hsp
      simp only [Except.ok.injEq] at h
      subst h
      exact ⟨rfl, invSize_append inv _ _, hsp⟩
    · simp at h
  · rw [if_neg hp] at h
    simp at h

theorem invDelete_ok_fields {inv : Inv} {name : String} {inv' : Inv}
    (h : invDelete inv name = .ok inv') :
    inv'.maxSize = inv.maxSize ∧ invSize inv' ≤ invSize inv := by
  unfold invDelete at h
  split at h
  · simp only [Except.ok.injEq] at h
    subst h
    exact ⟨rfl, invSize_filter_le inv _⟩
  · simp at h

theorem invApply_size {inv : Inv} (op : InvOp) (hle : invSize inv ≤ inv.maxSize) :
    invSize (invApply inv op) ≤ (invApply inv op).maxSize
    ∧ (invApply inv op).maxSize = inv.maxSize := by
  cases op with
  | add it =>
    cases hq : invAddItem inv it with
    | ok inv' =>
      have hev : invApply inv (.add it) = inv' := by
        simp only [invApply, hq]
      rw [hev]
      obtain ⟨hmax, hsz, hb⟩ := invAddItem_ok_fields hq
      exact ⟨by rw [hmax, hsz]; exact hb, hmax⟩
    | error e =>
      have hev : invApply inv (.add it) = inv := by
        simp only [invApply, hq]
      rw [hev]
      exact ⟨hle, rfl⟩
  | del name =>
    cases hq : invDelete inv name with
    | ok inv' =>
      have hev : invApply inv (.del name) = inv' := by
        simp only [invApply, hq]
      rw [hev]
      obtain ⟨hmax, hsz⟩ := invDelete_ok_fields hq
      exact ⟨by rw [hmax]; omega, hmax⟩
    | error e =>
      have hev : invApply inv (.del name) = inv := by
        simp only [invApply, hq]
      rw [hev]
      exact ⟨hle, rfl⟩

/-- **C7**: `Inventory.add_item` on a pickable item raises
`not_enough_space` exactly when `size() + item.inventory_space()` exceeds
`max_size`; a failing call leaves the inventory as it was; and consequently
`size() ≤ max_size` is preserved by every sequence of `add_item` /
`delete_item` calls. -/
theorem c7_inventory_bound (inv : Inv) (it : PItem) (hp : it.pickable = true) :
    ((invAddItem inv it = .error .invNotEnoughSpace)
      ↔ inv.maxSize < invSize inv + it.invSpace)
    ∧ (∀ e, invAddItem inv it = .error e → invApply inv (.add it) = inv)
    ∧ (∀ ops : List InvOp, invSize inv ≤ inv.maxSize →
        invSize (invApplyAll inv ops) ≤ (invApplyAll inv ops).maxSize
        ∧ (invApplyAll inv ops).maxSize = inv.maxSize) := by
  refine ⟨?_, ?_, ?_⟩
  · unfold invAddItem
    rw [if_pos hp]
    dsimp only
    split
    · rename_i hsp
      constructor
      · intro hh
        exact absurd hh (by simp)
      · intro hh
        exact absurd hh (by omega)
    · rename_i hsp
      constructor
      · intro
        omega
      · intro
        rfl
  · intro e he
    simp only [invApply, he]
  · intro ops
    induction ops generalizing inv with
    | nil => exact fun h => ⟨h, rfl⟩
    | cons op rest ih =>
      intro hle
      have hstep := invApply_size op hle
      have hrest := ih (invApply inv op) hstep.1
      simp only [invApplyAll, List.foldl_cons] at hrest ⊢
      exact ⟨hrest.1, by rw [hrest.2, hstep.2]⟩

/-- C7, witness: Inventory(max 3) with item A (space 2) stored; adding
item B (space 2) raises `not_enough_space`, leaving only A. -/
theorem c7_witness :
    (invAddItem { maxSize := 3, items := [("A", (mkTreasure 10 2 1).core)] }
        (mkTreasure 11 2 1).core = .error .invNotEnoughSpace)
    ∧ invApply { maxSize := 3, items := [("A", (mkTreasure 10 2 1).core)] }
        (.add (mkTreasure 11 2 1).core)
      = { maxSize := 3, items := [("A", (mkTreasure 10 2 1).core)] } := by
  have h := c7_inventory_bound
    { maxSize := 3, items := [("A", (mkTreasure 10 2 1).core)] }
    (mkTreasure 11 2 1).core (by decide)
  have herr : invAddItem { maxSize := 3, items := [("A", (mkTreasure 10 2 1).core)] }
      (mkTreasure 11 2 1).core = .error .invNotEnoughSpace :=
    h.1.mpr (by decide)
  exact ⟨herr, h.2.1 _ herr⟩

/-! ## Concrete counterexamples and code-divergence evaluations -/

/-- C2, counterexample: the destination holds a non-overlappable pickable
Treasure that is *not* consumed (the mover's inventory is full), yet
`Board.move` does not return silently — it propagates the
`not_enough_space` inventory exception raised inside the pickup branch. -/
theorem c2_counterexample :
    (cellAt fullPickScene 0 1).map (fun i => (i.core.overlappable, i.core.pickable))
        = some (false, true)
    ∧ hasInventory fullPickPlayer = true
    ∧ moveSimple fullPickScene fullPickPlayer .right 1
        = .error .invNotEnoughSpace := by
  exact ⟨rfl, rfl, rfl⟩

/-- C4, counterexample: after `place_item` puts a Player on top of a Door,
the Door (id 2, an Immovable) is still a member of `immovables` but is
stored nowhere in the matrix (it is parked in the overlapped matrix), so
"item ∈ immovables iff it is an Immovable currently stored in the matrix"
fails in the right-to-left direction. -/
theorem c4_counterexample :
    (2 ∈ stompScene.immovables)
    ∧ isImmovableKind (mkDoor 2).core.kind = true
    ∧ parkAt stompScene 0 0 = some (reposition (mkDoor 2) 0 0)
    ∧ (∀ rn < stompScene.height, ∀ cn < stompScene.width,
        ∀ it ∈ cellAt stompScene rn cn, it.core.id ≠ 2) := by decide

/-- **C5** (code bug): in one `actuate_projectiles` tick, the directional
projectile that collides with the Wall fires its hit callback *twice* —
first with a placeholder `BoardItemVoid`, then with the actual blocker —
although the claim (and the spec's design note) demand exactly one
invocation per lifetime, with the blocker. -/
theorem c5_double_hit :
    (actuateProjectiles projScene 0).map (fun g => g.hits)
      = .ok [(7, [placeholderVoid]), (7, [reposition (mkWall 3) 1 2])] := by rfl

/-- C6, counterexample: in the spec's three-Wall AoE-on-placement scenario
the hit callback receives a list of length 2 — the walls at (3,4) and
(4,3) — not the claimed 3: `Game.neighbors` excludes its center, i.e. the
blocking wall at (3,3) itself. -/
theorem c6_counterexample :
    (addProjectile aoeScene 0 (mkAoeProj 9 1) 3 3).map
        (fun g => g.hits.map (fun h => (h.2.length, h.2.map (fun i => i.core.pos))))
      = .ok [(2, [(3, 4), (4, 3)])] := by rfl

/-- C8, counterexample: with the Player at (0,0) and a Wall at (4,0) on a
5×5 board, `neighbors(1, player)` returns the wall at (4,0) — a cell far
outside the radius-1 Chebyshev square — because the negative probe row −1
wraps to the last row under Python list indexing. -/
theorem c8_counterexample :
    wrapScenePlayer.core.pos = (0, 0)
    ∧ (neighbors wrapScene 1 wrapScenePlayer).map (fun l => l.map (fun i => i.core.pos))
        = .ok [(4, 0)] := by
  exact ⟨rfl, rfl⟩

/-- **C9** (code bug): `save_board(2, f)` on a game whose current level is
1 stores the metadata of the level-2 board "BB" but collects `map_data`
from `current_board()` — the level-1 board — so the Wall of board "BB" at
(0,0) is lost: the saved document has an empty `map_data` and the reloaded
board holds a void at (0,0). -/
theorem c9_save_reads_current_board :
    ((cellAt (placeAll (mkBoard "BB" 5 5 " ") [(mkWall 3, 0, 0)]) 0 0).map
        (fun i => i.core.kind) = some .wall)
    ∧ ((saveBoard twoLevelGame 2).map (fun sd => (sd.name, sd.mapData.length))
        = .ok ("BB", 0))
    ∧ (((saveBoard twoLevelGame 2) >>= fun sd => loadBoard twoLevelGame sd 2).map
        (fun p => (p.2.name, (cellAt p.2 0 0).map (fun i => i.core.kind)))
        = .ok ("BB", some .void)) := by
  exact ⟨rfl, rfl, rfl⟩

/-! ## Claim C2 -/

/-- **C2** (amended: the silent refusal holds for an out-of-bounds
destination and for a non-overlappable destination **when the pickup branch
does not apply** — destination not pickable or mover without inventory; if
a pickup is attempted and the inventory is full, `move` propagates the
inventory exception instead of returning silently, see the
counterexample).  For every well-sized board and movable single-cell item:
an out-of-bounds computed destination returns with the board and item
exactly as they were; an in-bounds non-overlappable destination with no
applicable pickup returns leaving the matrix, the overlapped matrix, the
item's position and the movable/immovable sets unchanged. -/
theorem c2_refused_moves (b : Board) (m : Item) (d : Direction) (step : Int)
    (ws : WellSized b) (hmov : isMovableKind m.core.kind = true)
    (hcan : m.core.canMove = true) :
    (∀ nr nc, destCoords m.core.pos d step = some (nr, nc) →
      ¬(0 ≤ nr ∧ 0 ≤ nc ∧ nr < (b.height : Int) ∧ nc < (b.width : Int)) →
      moveSimple b m d step = .ok (b, m))
    ∧ (∀ nr nc e, destCoords m.core.pos d step = some (nr, nc) →
      0 ≤ nr → 0 ≤ nc → nr < (b.height : Int) → nc < (b.width : Int) →
      cellAt b nr.toNat nc.toNat = some e →
      e.core.overlappable = false →
      ¬(e.core.pickable = true ∧ hasInventory m = true) →
      ∃ b', moveSimple b m d step = .ok (b', m)
        ∧ b'.matrix = b.matrix ∧ b'.overlapped = b.overlapped
        ∧ b'.movables = b.movables ∧ b'.immovables = b.immovables) := by
  constructor
  · intro nr nc hd hob
    unfold moveSimple
    rw [if_pos ⟨hmov, hcan⟩]
    rw [hd]
    try dsimp only
    rw [if_neg hob]
  · intro nr nc e hd h0r h0c hr hc hcell hnov hnp
    unfold moveSimple
    rw [if_pos ⟨hmov, hcan⟩, hd]
    try dsimp only
    rw [if_pos ⟨h0r, h0c, hr, hc⟩]
    rw [matGet_eq_cell ws h0r hr h0c hc hcell, bindOk]
    try dsimp only
    have hguard : ¬(¬e.core.overlappable = true ∧ e.core.pickable = true
        ∧ isMovableKind m.core.kind = true ∧ hasInventory m = true) := by
      intro hh
      exact hnp ⟨hh.2.1, hh.2.2.2⟩
    rw [if_neg hguard, pureBind]
    try dsimp only
    have hr' : nr < ((activateIf b m.core e.core).height : Int) := by
      rw [activateIf_height]; exact hr
    have hc' : nc < ((activateIf b m.core e.core).width : Int) := by
      rw [activateIf_width]; exact hc
    have hcell' : cellAt (activateIf b m.core e.core) nr.toNat nc.toNat = some e := by
      rw [cellAt_activateIf]; exact hcell
    rw [matGet_eq_cell (wellSized_activateIf ws _ _) h0r hr' h0c hc' hcell', bindOk]
    try dsimp only
    rw [if_neg (by simp [hnov])]
    exact ⟨activateIf b m.core e.core, rfl, by simp, by simp, by simp, by simp⟩

/-- C2, witness: the spec's Wall-blocks scenario (move RIGHT into the Wall
leaves everything unchanged) and the out-of-bounds scenario (move UP from
(0,0) is silently refused). -/
theorem c2_witness :
    moveSimple wallScene wallScenePlayer .up 1 = .ok (wallScene, wallScenePlayer)
    ∧ ∃ b', moveSimple wallScene wallScenePlayer .right 1 = .ok (b', wallScenePlayer)
        ∧ b'.matrix = wallScene.matrix ∧ b'.overlapped = wallScene.overlapped
        ∧ b'.movables = wallScene.movables ∧ b'.immovables = wallScene.immovables := by
  constructor
  · exact (c2_refused_moves wallScene wallScenePlayer .up 1 (by decide) (by decide)
      (by decide)).1 (-1) 0 (by decide) (by decide)
  · exact (c2_refused_moves wallScene wallScenePlayer .right 1 (by decide) (by decide)
      (by decide)).2 0 1 (reposition (mkWall 3) 0 1) (by decide) (by decide)
      (by decide) (by decide) (by decide) (by decide) (by decide) (by decide)

/-! ## Claim C6 -/

/-- **C6** (amended: the AoE callback list excludes the blocker itself —
`neighbors` skips its center cell — so the three-Wall scenario yields a
list of length 2, not 3).  For every in-bounds `add_projectile` whose
target cell holds a non-void item: a directional projectile's callback is
fired once with the single-element blocker list, an AoE projectile's
callback is fired once with `neighbors(aoe_radius, blocker)`, and in both
cases the game is unchanged except for the journalled hit — in particular
the projectile is neither placed on the board nor appended to the
roster. -/
theorem c6_on_placement_hit (g : Game) (lvlNum : Int) (lvl : Level) (proj : Item)
    (r c : Int) (co : Item)
    (hlvl : getLevel g lvlNum = some lvl)
    (ws : WellSized lvl.board)
    (h0r : 0 ≤ r) (hr : r < (lvl.board.height : Int))
    (h0c : 0 ≤ c) (hc : c < (lvl.board.width : Int))
    (hco : cellAt lvl.board r.toNat c.toNat = some co)
    (hnv : co.core.kind ≠ .void) :
    (proj.core.isAoe = false →
      addProjectile g lvlNum proj r c
        = .ok { g with hits := g.hits ++ [(proj.core.id, [co])] })
    ∧ (∀ ns, proj.core.isAoe = true → neighbors g proj.core.aoeRadius co = .ok ns →
      addProjectile g lvlNum proj r c
        = .ok { g with hits := g.hits ++ [(proj.core.id, ns)] }) := by
  have hbi : boardItem lvl.board r c = .ok co := by
    unfold boardItem
    rw [if_pos ⟨hr, hc⟩]
    exact matGet_eq_cell ws h0r hr h0c hc hco
  constructor
  · intro haoe
    unfold addProjectile
    rw [hlvl]
    try dsimp only
    rw [if_neg (by omega)]
    rw [hbi, bindOk]
    try dsimp only
    rw [if_pos hnv]
    rw [if_neg (by simp [haoe])]
    rfl
  · intro ns haoe hns
    unfold addProjectile
    rw [hlvl]
    try dsimp only
    rw [if_neg (by omega)]
    rw [hbi, bindOk]
    try dsimp only
    rw [if_pos hnv]
    rw [if_pos haoe]
    rw [hns, bindOk]
    rfl

/-- C6, witness: the three-Wall scenario — the AoE projectile's callback
receives exactly the two other walls, in row-major order, and the game is
otherwise unchanged (no placement, no roster entry). -/
theorem c6_witness :
    addProjectile aoeScene 0 (mkAoeProj 9 1) 3 3
      = .ok { aoeScene with hits := aoeScene.hits
          ++ [(9, [reposition (mkWall 4) 3 4, reposition (mkWall 5) 4 3])] } :=
  (c6_on_placement_hit aoeScene 0
      { board := placeAll (mkBoard "B" 10 10 " ")
          [(mkWall 3, 3, 3), (mkWall 4, 3, 4), (mkWall 5, 4, 3)]
        projectiles := [] }
      (mkAoeProj 9 1) 3 3 (reposition (mkWall 3) 3 3) rfl (by decide)
      (by decide) (by decide) (by decide) (by decide) (by decide) (by decide)).2
    [reposition (mkWall 4) 3 4, reposition (mkWall 5) 4 3] (by decide) (by rfl)

/-! ## Claim C1 -/

theorem immovable_ne_void {k : ItemKind} (h : isImmovableKind k = true) :
    k ≠ ItemKind.void := by
  cases k <;> simp_all [isImmovableKind]

/-- The void-placing tail of `_move_simple` in normal form: place a fresh
void at the (in-bounds) departure cell, then place the mover at the
(distinct, in-bounds) destination. -/
theorem moveFinishVoid_ok {b : Board} (m : Item) {nr nc : Int} {exS exD : Item}
    (ws : WellSized b)
    (h0r : 0 ≤ nr) (hr : nr < (b.height : Int)) (h0c : 0 ≤ nc) (hc : nc < (b.width : Int))
    (h0sr : 0 ≤ m.core.pos.1) (hsr : m.core.pos.1 < (b.height : Int))
    (h0sc : 0 ≤ m.core.pos.2) (hsc : m.core.pos.2 < (b.width : Int))
    (hneN : ¬(nr.toNat = m.core.pos.1.toNat ∧ nc.toNat = m.core.pos.2.toNat))
    (hexS : cellAt b m.core.pos.1.toNat m.core.pos.2.toNat = some exS)
    (hexD : cellAt b nr.toNat nc.toNat = some exD) :
    moveFinishVoid b m nr nc
      = .ok (placeNorm
          (placeNorm b exS (generateVoidCell b) m.core.pos.1.toNat m.core.pos.2.toNat
            m.core.pos.1 m.core.pos.2)
          exD m nr.toNat nc.toNat nr nc,
        reposition m nr nc) := by
  unfold moveFinishVoid
  rw [placeItem_ok (generateVoidCell b) ws h0sr hsr h0sc hsc hexS, bindOk]
  try dsimp only
  have ws3 : WellSized (placeNorm b exS (generateVoidCell b) m.core.pos.1.toNat
      m.core.pos.2.toNat m.core.pos.1 m.core.pos.2) :=
    wellSized_placeNorm ws (by omega) _ _ _ _ _
  have hr3 : nr < ((placeNorm b exS (generateVoidCell b) m.core.pos.1.toNat
      m.core.pos.2.toNat m.core.pos.1 m.core.pos.2).height : Int) := by
    simpa using hr
  have hc3 : nc < ((placeNorm b exS (generateVoidCell b) m.core.pos.1.toNat
      m.core.pos.2.toNat m.core.pos.1 m.core.pos.2).width : Int) := by
    simpa using hc
  have hcell3 : cellAt (placeNorm b exS (generateVoidCell b) m.core.pos.1.toNat
      m.core.pos.2.toNat m.core.pos.1 m.core.pos.2) nr.toNat nc.toNat = some exD := by
    rw [cellAt_placeNorm_ne hneN]
    exact hexD
  rw [placeItem_ok m ws3 h0r hr3 h0c hc3 hcell3, bindOk]
  rfl

/-- **C1**: moving a single-cell Movable onto a distinct in-bounds cell
occupied by an overlappable restorable Immovable parks that item in the
overlap slot of the destination, puts the mover into the destination cell,
and (the mover's own overlap slot being empty) leaves a fresh void at the
departure cell; a subsequent successful move of the same Movable off that
cell onto an overlappable destination restores the parked item into the
matrix at its own cell and clears its overlap slot. -/
theorem c1_overlap_restore :
    (∀ (b : Board) (m : Item) (d : Direction) (step nr nc : Int) (dst : Item),
      WellSized b →
      isMovableKind m.core.kind = true → m.core.canMove = true →
      destCoords m.core.pos d step = some (nr, nc) →
      0 ≤ nr → 0 ≤ nc → nr < (b.height : Int) → nc < (b.width : Int) →
      0 ≤ m.core.pos.1 → 0 ≤ m.core.pos.2 →
      m.core.pos.1 < (b.height : Int) → m.core.pos.2 < (b.width : Int) →
      (nr, nc) ≠ m.core.pos →
      cellAt b nr.toNat nc.toNat = some dst →
      isImmovableKind dst.core.kind = true →
      dst.core.overlappable = true → dst.core.restorable = true →
      parkAt b m.core.pos.1.toNat m.core.pos.2.toNat = none →
      ∃ b', moveSimple b m d step = .ok (b', reposition m nr nc)
        ∧ cellAt b' nr.toNat nc.toNat = some (reposition m nr nc)
        ∧ parkAt b' nr.toNat nc.toNat = some dst
        ∧ cellAt b' m.core.pos.1.toNat m.core.pos.2.toNat
            = some (reposition (generateVoidCell b) m.core.pos.1 m.core.pos.2))
    ∧ (∀ (b : Board) (m : Item) (d : Direction) (step qr qc : Int) (dv e : Item),
      WellSized b →
      isMovableKind m.core.kind = true → m.core.canMove = true →
      destCoords m.core.pos d step = some (qr, qc) →
      0 ≤ qr → 0 ≤ qc → qr < (b.height : Int) → qc < (b.width : Int) →
      0 ≤ m.core.pos.1 → 0 ≤ m.core.pos.2 →
      m.core.pos.1 < (b.height : Int) → m.core.pos.2 < (b.width : Int) →
      (qr, qc) ≠ m.core.pos →
      parkAt b m.core.pos.1.toNat m.core.pos.2.toNat = some dv →
      isImmovableKind dv.core.kind = true → dv.core.restorable = true →
      dv.core.pos = m.core.pos →
      cellAt b qr.toNat qc.toNat = some e →
      e.core.overlappable = true →
      ∃ b', moveSimple b m d step = .ok (b', reposition m qr qc)
        ∧ cellAt b' m.core.pos.1.toNat m.core.pos.2.toNat
            = some (reposition dv m.core.pos.1 m.core.pos.2)
        ∧ parkAt b' m.core.pos.1.toNat m.core.pos.2.toNat = none
        ∧ cellAt b' qr.toNat qc.toNat = some (reposition m qr qc)) := by
  constructor
  · intro b m d step nr nc dst ws hmov hcan hd h0nr h0nc hnr hnc h0sr h0sc hsr hsc
      hne hdst himm hover hrest hslot
    have hne' : nr ≠ m.core.pos.1 ∨ nc ≠ m.core.pos.2 := by
      by_contra h
      push_neg at h
      exact hne (Prod.ext h.1 h.2)
    have hneN : ¬(nr.toNat = m.core.pos.1.toNat ∧ nc.toNat = m.core.pos.2.toNat) := by
      omega
    have hneN' : ¬(m.core.pos.1.toNat = nr.toNat ∧ m.core.pos.2.toNat = nc.toNat) := by
      omega
    have hsrN : m.core.pos.1.toNat < b.height := by omega
    have hscN : m.core.pos.2.toNat < b.width := by omega
    have hnrN : nr.toNat < b.height := by omega
    have hncN : nc.toNat < b.width := by omega
    unfold moveSimple
    rw [if_pos ⟨hmov, hcan⟩, hd]
    try dsimp only
    rw [if_pos ⟨h0nr, h0nc, hnr, hnc⟩]
    rw [matGet_eq_cell ws h0nr hnr h0nc hnc hdst, bindOk]
    try dsimp only
    rw [if_neg (by simp [hover]), pureBind]
    try dsimp only
    have ws1 : WellSized (activateIf b m.core dst.core) := wellSized_activateIf ws _ _
    have hnr1 : nr < ((activateIf b m.core dst.core).height : Int) := by
      simpa using hnr
    have hnc1 : nc < ((activateIf b m.core dst.core).width : Int) := by
      simpa using hnc
    have hdst1 : cellAt (activateIf b m.core dst.core) nr.toNat nc.toNat = some dst := by
      rw [cellAt_activateIf]
      exact hdst
    rw [matGet_eq_cell ws1 h0nr hnr1 h0nc hnc1 hdst1, bindOk]
    try dsimp only
    rw [if_pos (show dst.core.overlappable = true from hover)]
    rw [if_pos ⟨immovable_ne_void himm, himm, hrest⟩]
    rw [overSet_ok ws1 h0nr hnr1 h0nc hnc1, bindOk]
    try dsimp only
    have ws2 : WellSized (setPark (activateIf b m.core dst.core) nr.toNat nc.toNat
        (some dst)) := wellSized_setPark ws1 (by simpa using hnrN) _
    have hsr2 : m.core.pos.1 < ((setPark (activateIf b m.core dst.core) nr.toNat
        nc.toNat (some dst)).height : Int) := by
      simpa using hsr
    have hsc2 : m.core.pos.2 < ((setPark (activateIf b m.core dst.core) nr.toNat
        nc.toNat (some dst)).width : Int) := by
      simpa using hsc
    rw [overGet_ok ws2 h0sr hsr2 h0sc hsc2]
    rw [parkAt_setPark_ne _ hneN', parkAt_activateIf, hslot]
    rw [bindOk]
    try dsimp only
    obtain ⟨exS, hexS⟩ := cellAt_of_lt ws hsrN hscN
    have hexS2 : cellAt (setPark (activateIf b m.core dst.core) nr.toNat nc.toNat
        (some dst)) m.core.pos.1.toNat m.core.pos.2.toNat = some exS := by
      rw [cellAt_setPark, cellAt_activateIf]
      exact hexS
    have hexD2 : cellAt (setPark (activateIf b m.core dst.core) nr.toNat nc.toNat
        (some dst)) nr.toNat nc.toNat = some dst := by
      rw [cellAt_setPark, cellAt_activateIf]
      exact hdst
    have hnr2 : nr < ((setPark (activateIf b m.core dst.core) nr.toNat nc.toNat
        (some dst)).height : Int) := by
      simpa using hnr
    have hnc2 : nc < ((setPark (activateIf b m.core dst.core) nr.toNat nc.toNat
        (some dst)).width : Int) := by
      simpa using hnc
    rw [moveFinishVoid_ok m ws2 h0nr hnr2 h0nc hnc2 h0sr hsr2 h0sc hsc2 hneN
      hexS2 hexD2]
    have ws3 : WellSized (placeNorm (setPark (activateIf b m.core dst.core) nr.toNat
        nc.toNat (some dst)) exS (generateVoidCell (setPark (activateIf b m.core
        dst.core) nr.toNat nc.toNat (some dst))) m.core.pos.1.toNat
        m.core.pos.2.toNat m.core.pos.1 m.core.pos.2) :=
      wellSized_placeNorm ws2 (by simpa using hsrN) _ _ _ _ _
    refine ⟨_, rfl, ?_, ?_, ?_⟩
    · exact cellAt_placeNorm_self ws3 (by simpa using hnrN) (by simpa using hncN)
        _ _ _ _
    · rw [parkAt_placeNorm_saved ws3 (by simpa using hnrN) (by simpa using hncN)
        ⟨himm, hrest, hover⟩ _ _ _]
    · rw [cellAt_placeNorm_ne hneN']
      have hgv : generateVoidCell (setPark (activateIf b m.core dst.core) nr.toNat
          nc.toNat (some dst)) = generateVoidCell b := by
        unfold generateVoidCell
        rw [setPark_voidModel, activateIf_voidModel]
      rw [hgv]
      exact cellAt_placeNorm_self ws2 (by simpa using hsrN) (by simpa using hscN)
        _ _ _ _
  · intro b m d step qr qc dv e ws hmov hcan hd h0qr h0qc hqr hqc h0sr h0sc hsr hsc
      hne hpark himm hrest hdvpos hcell hover
    have hne' : qr ≠ m.core.pos.1 ∨ qc ≠ m.core.pos.2 := by
      by_contra h
      push_neg at h
      exact hne (Prod.ext h.1 h.2)
    have hneN : ¬(qr.toNat = m.core.pos.1.toNat ∧ qc.toNat = m.core.pos.2.toNat) := by
      omega
    have hneN' : ¬(m.core.pos.1.toNat = qr.toNat ∧ m.core.pos.2.toNat = qc.toNat) := by
      omega
    have hsrN : m.core.pos.1.toNat < b.height := by omega
    have hscN : m.core.pos.2.toNat < b.width := by omega
    have hqrN : qr.toNat < b.height := by omega
    have hqcN : qc.toNat < b.width := by omega
    have hposne : dv.core.pos.1 ≠ qr ∨ dv.core.pos.2 ≠ qc := by
      rw [hdvpos]
      exact hne'.imp Ne.symm Ne.symm
    unfold moveSimple
    rw [if_pos ⟨hmov, hcan⟩, hd]
    try dsimp only
    rw [if_pos ⟨h0qr, h0qc, hqr, hqc⟩]
    rw [matGet_eq_cell ws h0qr hqr h0qc hqc hcell, bindOk]
    try dsimp only
    rw [if_neg (by simp [hover]), pureBind]
    try dsimp only
    have ws1 : WellSized (activateIf b m.core e.core) := wellSized_activateIf ws _ _
    have hqr1 : qr < ((activateIf b m.core e.core).height : Int) := by simpa using hqr
    have hqc1 : qc < ((activateIf b m.core e.core).width : Int) := by simpa using hqc
    have hcell1 : cellAt (activateIf b m.core e.core) qr.toNat qc.toNat = some e := by
      rw [cellAt_activateIf]
      exact hcell
    rw [matGet_eq_cell ws1 h0qr hqr1 h0qc hqc1 hcell1, bindOk]
    try dsimp only
    rw [if_pos (show e.core.overlappable = true from hover)]
    obtain ⟨exS, hexS⟩ := cellAt_of_lt ws hsrN hscN
    by_cases hsave : e.core.kind ≠ ItemKind.void ∧ isImmovableKind e.core.kind = true
        ∧ e.core.restorable = true
    · rw [if_pos hsave]
      rw [overSet_ok ws1 h0qr hqr1 h0qc hqc1, bindOk]
      try dsimp only
      have ws2 : WellSized (setPark (activateIf b m.core e.core) qr.toNat qc.toNat
          (some e)) := wellSized_setPark ws1 (by simpa using hqrN) _
      have hb2h : (setPark (activateIf b m.core e.core) qr.toNat qc.toNat
          (some e)).height = b.height := by simp
      have hb2w : (setPark (activateIf b m.core e.core) qr.toNat qc.toNat
          (some e)).width = b.width := by simp
      have hb2cell : ∀ rn cn, cellAt (setPark (activateIf b m.core e.core) qr.toNat
          qc.toNat (some e)) rn cn = cellAt b rn cn := by
        intro rn cn
        rw [cellAt_setPark, cellAt_activateIf]
      have hb2park : parkAt (setPark (activateIf b m.core e.core) qr.toNat qc.toNat
          (some e)) m.core.pos.1.toNat m.core.pos.2.toNat = some dv := by
        rw [parkAt_setPark_ne _ hneN', parkAt_activateIf]
        exact hpark
      have hsr2 : m.core.pos.1 < ((setPark (activateIf b m.core e.core) qr.toNat qc.toNat (some e)).height : Int) := by
        rw [hb2h]; exact hsr
      have hsc2 : m.core.pos.2 < ((setPark (activateIf b m.core e.core) qr.toNat qc.toNat (some e)).width : Int) := by
        rw [hb2w]; exact hsc
      rw [overGet_ok ws2 h0sr hsr2 h0sc hsc2]
      rw [hb2park, bindOk]
      try dsimp only
      rw [if_pos ⟨himm, hrest, hposne⟩]
      rw [hdvpos]
      have hexS2 : cellAt (setPark (activateIf b m.core e.core) qr.toNat qc.toNat (some e)) m.core.pos.1.toNat m.core.pos.2.toNat = some exS := by
        rw [hb2cell]; exact hexS
      rw [placeItem_ok dv ws2 h0sr hsr2 h0sc hsc2 hexS2, bindOk]
      try dsimp only
      have ws3 : WellSized (placeNorm (setPark (activateIf b m.core e.core) qr.toNat qc.toNat (some e)) exS dv m.core.pos.1.toNat
          m.core.pos.2.toNat m.core.pos.1 m.core.pos.2) :=
        wellSized_placeNorm ws2 (by rw [hb2h]; exact hsrN) _ _ _ _ _
      have hsr3 : m.core.pos.1 < ((placeNorm (setPark (activateIf b m.core e.core) qr.toNat qc.toNat (some e)) exS dv m.core.pos.1.toNat
          m.core.pos.2.toNat m.core.pos.1 m.core.pos.2).height : Int) := by
        rw [placeNorm_height, hb2h]; exact hsr
      have hsc3 : m.core.pos.2 < ((placeNorm (setPark (activateIf b m.core e.core) qr.toNat qc.toNat (some e)) exS dv m.core.pos.1.toNat
          m.core.pos.2.toNat m.core.pos.1 m.core.pos.2).width : Int) := by
        rw [placeNorm_width, hb2w]; exact hsc
      rw [overSet_ok ws3 h0sr hsr3 h0sc hsc3, bindOk]
      try dsimp only
      have ws4 : WellSized (setPark (placeNorm (setPark (activateIf b m.core e.core) qr.toNat qc.toNat (some e)) exS dv m.core.pos.1.toNat
          m.core.pos.2.toNat m.core.pos.1 m.core.pos.2) m.core.pos.1.toNat
          m.core.pos.2.toNat none) :=
        wellSized_setPark ws3 (by rw [placeNorm_height, hb2h]; exact hsrN) _
      have hqr4 : qr < ((setPark (placeNorm (setPark (activateIf b m.core e.core) qr.toNat qc.toNat (some e)) exS dv m.core.pos.1.toNat
          m.core.pos.2.toNat m.core.pos.1 m.core.pos.2) m.core.pos.1.toNat
          m.core.pos.2.toNat none).height : Int) := by
        rw [setPark_height, placeNorm_height, hb2h]; exact hqr
      have hqc4 : qc < ((setPark (placeNorm (setPark (activateIf b m.core e.core) qr.toNat qc.toNat (some e)) exS dv m.core.pos.1.toNat
          m.core.pos.2.toNat m.core.pos.1 m.core.pos.2) m.core.pos.1.toNat
          m.core.pos.2.toNat none).width : Int) := by
        rw [setPark_width, placeNorm_width, hb2w]; exact hqc
      have hcell4 : cellAt (setPark (placeNorm (setPark (activateIf b m.core e.core) qr.toNat qc.toNat (some e)) exS dv m.core.pos.1.toNat
          m.core.pos.2.toNat m.core.pos.1 m.core.pos.2) m.core.pos.1.toNat
          m.core.pos.2.toNat none) qr.toNat qc.toNat = some e := by
        rw [cellAt_setPark, cellAt_placeNorm_ne hneN, hb2cell]
        exact hcell
      rw [placeItem_ok m ws4 h0qr hqr4 h0qc hqc4 hcell4, bindOk]
      try dsimp only
      refine ⟨_, rfl, ?_, ?_, ?_⟩
      · rw [cellAt_placeNorm_ne hneN', cellAt_setPark]
        exact cellAt_placeNorm_self ws2 (by rw [hb2h]; exact hsrN)
          (by rw [hb2w]; exact hscN) _ _ _ _
      · rw [parkAt_placeNorm_ne hneN']
        exact parkAt_setPark_self ws3 (by rw [placeNorm_height, hb2h]; exact hsrN)
          (by rw [placeNorm_width, hb2w]; exact hscN) none
      · exact cellAt_placeNorm_self ws4
          (by rw [setPark_height, placeNorm_height, hb2h]; exact hqrN)
          (by rw [setPark_width, placeNorm_width, hb2w]; exact hqcN) _ _ _ _
    · rw [if_neg hsave]
      rw [pureBind]
      try dsimp only
      have ws2 : WellSized (activateIf b m.core e.core) := ws1
      have hb2h : (activateIf b m.core e.core).height = b.height := by simp
      have hb2w : (activateIf b m.core e.core).width = b.width := by simp
      have hb2cell : ∀ rn cn, cellAt (activateIf b m.core e.core) rn cn
          = cellAt b rn cn := by
        intro rn cn
        rw [cellAt_activateIf]
      have hb2park : parkAt (activateIf b m.core e.core) m.core.pos.1.toNat
          m.core.pos.2.toNat = some dv := by
        rw [parkAt_activateIf]
        exact hpark
      have hsr2 : m.core.pos.1 < ((activateIf b m.core e.core).height : Int) := by
        rw [hb2h]; exact hsr
      have hsc2 : m.core.pos.2 < ((activateIf b m.core e.core).width : Int) := by
        rw [hb2w]; exact hsc
      rw [overGet_ok ws2 h0sr hsr2 h0sc hsc2]
      rw [hb2park, bindOk]
      try dsimp only
      rw [if_pos ⟨himm, hrest, hposne⟩]
      rw [hdvpos]
      have hexS2 : cellAt (activateIf b m.core e.core) m.core.pos.1.toNat m.core.pos.2.toNat = some exS := by
        rw [hb2cell]; exact hexS
      rw [placeItem_ok dv ws2 h0sr hsr2 h0sc hsc2 hexS2, bindOk]
      try dsimp only
      have ws3 : WellSized (placeNorm (activateIf b m.core e.core) exS dv m.core.pos.1.toNat
          m.core.pos.2.toNat m.core.pos.1 m.core.pos.2) :=
        wellSized_placeNorm ws2 (by rw [hb2h]; exact hsrN) _ _ _ _ _
      have hsr3 : m.core.pos.1 < ((placeNorm (activateIf b m.core e.core) exS dv m.core.pos.1.toNat
          m.core.pos.2.toNat m.core.pos.1 m.core.pos.2).height : Int) := by
        rw [placeNorm_height, hb2h]; exact hsr
      have hsc3 : m.core.pos.2 < ((placeNorm (activateIf b m.core e.core) exS dv m.core.pos.1.toNat
          m.core.pos.2.toNat m.core.pos.1 m.core.pos.2).width : Int) := by
        rw [placeNorm_width, hb2w]; exact hsc
      rw [overSet_ok ws3 h0sr hsr3 h0sc hsc3, bindOk]
      try dsimp only
      have ws4 : WellSized (setPark (placeNorm (activateIf b m.core e.core) exS dv m.core.pos.1.toNat
          m.core.pos.2.toNat m.core.pos.1 m.core.pos.2) m.core.pos.1.toNat
          m.core.pos.2.toNat none) :=
        wellSized_setPark ws3 (by rw [placeNorm_height, hb2h]; exact hsrN) _
      have hqr4 : qr < ((setPark (placeNorm (activateIf b m.core e.core) exS dv m.core.pos.1.toNat
          m.core.pos.2.toNat m.core.pos.1 m.core.pos.2) m.core.pos.1.toNat
          m.core.pos.2.toNat none).height : Int) := by
        rw [setPark_height, placeNorm_height, hb2h]; exact hqr
      have hqc4 : qc < ((setPark (placeNorm (activateIf b m.core e.core) exS dv m.core.pos.1.toNat
          m.core.pos.2.toNat m.core.pos.1 m.core.pos.2) m.core.pos.1.toNat
          m.core.pos.2.toNat none).width : Int) := by
        rw [setPark_width, placeNorm_width, hb2w]; exact hqc
      have hcell4 : cellAt (setPark (placeNorm (activateIf b m.core e.core) exS dv m.core.pos.1.toNat
          m.core.pos.2.toNat m.core.pos.1 m.core.pos.2) m.core.pos.1.toNat
          m.core.pos.2.toNat none) qr.toNat qc.toNat = some e := by
        rw [cellAt_setPark, cellAt_placeNorm_ne hneN, hb2cell]
        exact hcell
      rw [placeItem_ok m ws4 h0qr hqr4 h0qc hqc4 hcell4, bindOk]
      try dsimp only
      refine ⟨_, rfl, ?_, ?_, ?_⟩
      · rw [cellAt_placeNorm_ne hneN', cellAt_setPark]
        exact cellAt_placeNorm_self ws2 (by rw [hb2h]; exact hsrN)
          (by rw [hb2w]; exact hscN) _ _ _ _
      · rw [parkAt_placeNorm_ne hneN']
        exact parkAt_setPark_self ws3 (by rw [placeNorm_height, hb2h]; exact hsrN)
          (by rw [placeNorm_width, hb2w]; exact hscN) none
      · exact cellAt_placeNorm_self ws4
          (by rw [setPark_height, placeNorm_height, hb2h]; exact hqrN)
          (by rw [setPark_width, placeNorm_width, hb2w]; exact hqcN) _ _ _ _

/-- Witness for C1: in the door scenario, the first move parks the door in
the overlap layer and voids the source; the second move restores the door
at its stored position and clears the overlap slot. -/
theorem c1_witness :
    (∃ b', moveSimple doorScene doorScenePlayer .right 1
        = .ok (b', reposition doorScenePlayer 2 2)
      ∧ cellAt b' 2 2 = some (reposition doorScenePlayer 2 2)
      ∧ parkAt b' 2 2 = some (reposition (mkDoor 2) 2 2)
      ∧ cellAt b' 2 1 = some (reposition (generateVoidCell doorScene) 2 1))
    ∧ (∃ b', moveSimple doorScene2 doorScene2Player .right 1
        = .ok (b', reposition doorScene2Player 2 3)
      ∧ cellAt b' 2 2 = some (reposition (reposition (mkDoor 2) 2 2) 2 2)
      ∧ parkAt b' 2 2 = none
      ∧ cellAt b' 2 3 = some (reposition doorScene2Player 2 3)) := by
  constructor
  · exact c1_overlap_restore.1 doorScene doorScenePlayer .right 1 2 2
      (reposition (mkDoor 2) 2 2) (by decide) (by decide) (by decide) (by decide)
      (by decide) (by decide) (by decide) (by decide) (by decide) (by decide)
      (by decide) (by decide) (by decide) (by decide) (by decide) (by decide)
      (by decide) (by decide)
  · exact c1_overlap_restore.2 doorScene2 doorScene2Player .right 1 2 3
      (reposition (mkDoor 2) 2 2) (generateVoidCell (mkBoard "B" 5 5 " "))
      (by decide) (by decide) (by decide) (by decide) (by decide) (by decide)
      (by decide) (by decide) (by decide) (by decide) (by decide) (by decide)
      (by decide) (by decide) (by decide) (by decide) (by decide) (by decide)
      (by decide)

theorem invValue_append (inv : Inv) (nm : String) (itc : PItem) :
    invValue { inv with items := inv.items ++ [(nm, itc)] }
      = invValue inv + itc.value.getD 0 := by
  simp only [invValue, List.filterMap_append, List.sum_append]
  cases hv : itc.value with
  | none => simp [List.filterMap_cons, hv]
  | some v => simp [List.filterMap_cons, hv]

theorem invAddItem_named {inv : Inv} {it : PItem}
    (hp : it.pickable = true)
    (hnm : ¬(it.name = "" ∨ (inv.items.map Prod.fst).contains it.name = true))
    (hsp : invSize inv + it.invSpace ≤ inv.maxSize) :
    invAddItem inv it = .ok { inv with items := inv.items ++ [(it.name, it)] } := by
  unfold invAddItem
  rw [if_pos hp]
  dsimp only
  rw [if_neg hnm]
  rw [if_pos hsp]

/-- **C3**: when a single-cell Movable with an inventory moves onto a
non-overlappable pickable item, `_move_simple` adds the destination item to
the mover's inventory (appending it under its own name when that name is
nonempty and fresh), clears it from the matrix, and places the mover on the
destination cell; `size()` grows by the item's `inventory_space()` and
`value()` by its value. -/
theorem c3_pickup_adds_to_inventory (b : Board) (m : Item) (inv0 : Inv)
    (d : Direction) (step nr nc : Int) (e exS : Item) (v : Int)
    (ws : WellSized b)
    (hmov : isMovableKind m.core.kind = true) (hcan : m.core.canMove = true)
    (hinv : m.inv = some inv0)
    (hd : destCoords m.core.pos d step = some (nr, nc))
    (h0nr : 0 ≤ nr) (h0nc : 0 ≤ nc)
    (hnr : nr < (b.height : Int)) (hnc : nc < (b.width : Int))
    (h0sr : 0 ≤ m.core.pos.1) (h0sc : 0 ≤ m.core.pos.2)
    (hsr : m.core.pos.1 < (b.height : Int)) (hsc : m.core.pos.2 < (b.width : Int))
    (hne : (nr, nc) ≠ m.core.pos)
    (hcell : cellAt b nr.toNat nc.toNat = some e)
    (hnov : e.core.overlappable = false) (hpick : e.core.pickable = true)
    (hname : ¬(e.core.name = "" ∨ (inv0.items.map Prod.fst).contains e.core.name = true))
    (hsp : invSize inv0 + e.core.invSpace ≤ inv0.maxSize)
    (hval : e.core.value = some v)
    (hpkD : parkAt b nr.toNat nc.toNat = none)
    (hpkS : parkAt b m.core.pos.1.toNat m.core.pos.2.toNat = none)
    (hexS : cellAt b m.core.pos.1.toNat m.core.pos.2.toNat = some exS) :
    ∃ b',
      moveSimple b m d step
        = .ok (b', reposition
            { m with inv := some { inv0 with
                items := inv0.items ++ [(e.core.name, e.core)] } } nr nc)
      ∧ invSize { inv0 with items := inv0.items ++ [(e.core.name, e.core)] }
          = invSize inv0 + e.core.invSpace
      ∧ invValue { inv0 with items := inv0.items ++ [(e.core.name, e.core)] }
          = invValue inv0 + v
      ∧ cellAt b' nr.toNat nc.toNat
          = some (reposition
              { m with inv := some { inv0 with
                  items := inv0.items ++ [(e.core.name, e.core)] } } nr nc)
      ∧ parkAt b' nr.toNat nc.toNat = none := by
  have hne' : nr ≠ m.core.pos.1 ∨ nc ≠ m.core.pos.2 := by
    by_contra h
    push_neg at h
    exact hne (Prod.ext h.1 h.2)
  have hneN : ¬(nr.toNat = m.core.pos.1.toNat ∧ nc.toNat = m.core.pos.2.toNat) := by
    omega
  have hsrN : m.core.pos.1.toNat < b.height := by omega
  have hscN : m.core.pos.2.toNat < b.width := by omega
  have hnrN : nr.toNat < b.height := by omega
  have hncN : nc.toNat < b.width := by omega
  unfold moveSimple
  rw [if_pos ⟨hmov, hcan⟩, hd]
  try dsimp only
  rw [if_pos ⟨h0nr, h0nc, hnr, hnc⟩]
  rw [matGet_eq_cell ws h0nr hnr h0nc hnc hcell, bindOk]
  try dsimp only
  rw [if_pos (show ¬e.core.overlappable = true ∧ e.core.pickable = true
      ∧ isMovableKind m.core.kind = true ∧ hasInventory m = true from
      ⟨by simp [hnov], hpick, hmov, by simp [hasInventory, hinv]⟩)]
  rw [hinv]
  try dsimp only
  rw [invAddItem_named hpick hname hsp, bindOk]
  try dsimp only
  have ws1 : WellSized (activateIf b m.core e.core) := wellSized_activateIf ws _ _
  have hnr1 : nr < ((activateIf b m.core e.core).height : Int) := by simpa using hnr
  have hnc1 : nc < ((activateIf b m.core e.core).width : Int) := by simpa using hnc
  have hcell1 : cellAt (activateIf b m.core e.core) nr.toNat nc.toNat = some e := by
    rw [cellAt_activateIf]
    exact hcell
  rw [clearCell_ok ws1 h0nr hnr1 h0nc hnc1 hcell1, bindOk]
  try dsimp only
  have hpk1 : parkAt (activateIf b m.core e.core) nr.toNat nc.toNat = none := by
    rw [parkAt_activateIf]
    exact hpkD
  rw [hpk1]
  try dsimp only
  have wsB1 : WellSized (clearNorm (activateIf b m.core e.core) e none
      nr.toNat nc.toNat) :=
    wellSized_clearNorm ws1 (by simpa using hnrN) e none nc.toNat
  have hnrB1 : nr < ((clearNorm (activateIf b m.core e.core) e none
      nr.toNat nc.toNat).height : Int) := by
    rw [clearNorm_height]
    exact hnr1
  have hncB1 : nc < ((clearNorm (activateIf b m.core e.core) e none
      nr.toNat nc.toNat).width : Int) := by
    rw [clearNorm_width]
    exact hnc1
  have hsrB1 : m.core.pos.1 < ((clearNorm (activateIf b m.core e.core) e none
      nr.toNat nc.toNat).height : Int) := by
    rw [clearNorm_height]
    simpa using hsr
  have hscB1 : m.core.pos.2 < ((clearNorm (activateIf b m.core e.core) e none
      nr.toNat nc.toNat).width : Int) := by
    rw [clearNorm_width]
    simpa using hsc
  have hcellD : cellAt (clearNorm (activateIf b m.core e.core) e none
      nr.toNat nc.toNat) nr.toNat nc.toNat
      = some (generateVoidCell (activateIf b m.core e.core)) := by
    have := cellAt_clearNorm_self ws1 (by simpa using hnrN) (by simpa using hncN)
      e (none : Option Item)
    simpa using this
  rw [pureBind]
  try dsimp only
  rw [matGet_eq_cell wsB1 h0nr hnrB1 h0nc hncB1 hcellD, bindOk]
  try dsimp only
  rw [if_pos (show (generateVoidCell (activateIf b m.core e.core)).core.overlappable
      = true from rfl)]
  rw [if_neg (show ¬((generateVoidCell (activateIf b m.core e.core)).core.kind
        ≠ ItemKind.void
      ∧ isImmovableKind (generateVoidCell (activateIf b m.core e.core)).core.kind = true
      ∧ (generateVoidCell (activateIf b m.core e.core)).core.restorable = true) from
      fun h => h.1 rfl)]
  rw [pureBind]
  try dsimp only
  rw [overGet_ok wsB1 h0sr hsrB1 h0sc hscB1]
  have hpkSB1 : parkAt (clearNorm (activateIf b m.core e.core) e none
      nr.toNat nc.toNat) m.core.pos.1.toNat m.core.pos.2.toNat = none := by
    rw [parkAt_clearNorm_ne (by omega), parkAt_activateIf]
    exact hpkS
  rw [hpkSB1, bindOk]
  try dsimp only
  have hexSB1 : cellAt (clearNorm (activateIf b m.core e.core) e none
      nr.toNat nc.toNat) m.core.pos.1.toNat m.core.pos.2.toNat = some exS := by
    rw [cellAt_clearNorm_ne (by omega), cellAt_activateIf]
    exact hexS
  rw [moveFinishVoid_ok { m with inv := some { inv0 with
        items := inv0.items ++ [(e.core.name, e.core)] } }
      wsB1 h0nr hnrB1 h0nc hncB1 h0sr hsrB1 h0sc hscB1 hneN hexSB1 hcellD]
  try dsimp only
  refine ⟨_, rfl, invSize_append inv0 _ _, ?_, ?_, ?_⟩
  · rw [invValue_append, hval]
    rfl
  · exact cellAt_placeNorm_self
      (wellSized_placeNorm wsB1 (by simp; omega) _ _ _ _ _)
      (by simp; omega) (by simp; omega) _ _ _ _
  · rw [parkAt_placeNorm_nosave (fun h => Bool.noConfusion h.1) _ _ _ _ _]
    rw [parkAt_placeNorm_ne hneN]
    rw [parkAt_clearNorm_self ws1 (by simpa using hnrN) (by simpa using hncN)]
    simp [parkAt_activateIf, hpkD]

/-- Counterexample to the letter of C3: when the mover's inventory lacks
room, nothing is added and the destination item is not removed — instead
the inventory's `not_enough_space` exception propagates out of the move. -/
theorem c3_counterexample :
    moveSimple fullPickScene fullPickPlayer .right 1
      = .error .invNotEnoughSpace := by
  rfl

/-- Witness for C3: in the Treasure scenario the player picks up the
treasure, the inventory reaches size 2 and value 50, and the player stands
on the former treasure cell. -/
theorem c3_witness :
    ∃ b', moveSimple pickScene pickScenePlayer .right 1
        = .ok (b', reposition
            { pickScenePlayer with
              inv := some (⟨10, [("treasure", (reposition (mkTreasure 4 2 50) 0 1).core)]⟩ : Inv) } 0 1)
      ∧ invSize
          (⟨10, [("treasure", (reposition (mkTreasure 4 2 50) 0 1).core)]⟩ : Inv) = 2
      ∧ invValue
          (⟨10, [("treasure", (reposition (mkTreasure 4 2 50) 0 1).core)]⟩ : Inv) = 50
      ∧ cellAt b' 0 1 = some (reposition
            { pickScenePlayer with
              inv := some (⟨10, [("treasure", (reposition (mkTreasure 4 2 50) 0 1).core)]⟩ : Inv) } 0 1)
      ∧ parkAt b' 0 1 = none :=
  c3_pickup_adds_to_inventory pickScene pickScenePlayer { maxSize := 10, items := [] }
    .right 1 0 1 (reposition (mkTreasure 4 2 50) 0 1) pickScenePlayer 50
    (by decide) (by decide) (by decide) (by decide) (by decide) (by decide)
    (by decide) (by decide) (by decide) (by decide) (by decide) (by decide)
    (by decide) (by decide) (by decide) (by decide) (by decide) (by decide)
    (by decide) (by decide) (by decide) (by decide) (by decide)

theorem mem_offsetRange {r x : Int} (hx : x ∈ offsetRange r) :
    -r ≤ x ∧ x ≤ r := by
  unfold offsetRange at hx
  rcases List.mem_map.mp hx with ⟨k, hk, hkx⟩
  simp at hk
  rcases hk with ⟨a, ha, hak⟩
  subst hak
  subst hkx
  omega

theorem exceptFoldlM_ok {α β : Type} (l : List β) (gf : β → List α)
    (step : List α → β → Except PyErr (List α)) :
    (∀ acc x, x ∈ l → step acc x = .ok (acc ++ gf x)) →
    ∀ acc, l.foldlM step acc
      = .ok (acc ++ l.foldr (fun x r => gf x ++ r) []) := by
  induction l with
  | nil =>
    intro _ acc
    rw [List.foldr_nil, List.append_nil]
    rfl
  | cons x xs ih =>
    intro h acc
    rw [List.foldlM_cons, h acc x (List.mem_cons_self x xs), bindOk,
      ih (fun a y hy => h a y (List.mem_cons_of_mem x hy)) (acc ++ gf x),
      List.foldr_cons, List.append_assoc]

theorem filterMap_eq_foldr_toList {α β : Type} (M : List β) (h : β → Option α) :
    M.filterMap h = M.foldr (fun y r => (h y).toList ++ r) [] := by
  induction M with
  | nil => rfl
  | cons y ys ih =>
    rw [List.filterMap_cons, List.foldr_cons, ih]
    cases h y <;> rfl

theorem filterMap_pairs {α : Type} (L M : List Int) (f : Int × Int → Option α) :
    (L.foldr (fun x acc => (M.map (fun y => (x, y))) ++ acc) []).filterMap f
      = L.foldr (fun x racc =>
          (M.foldr (fun y r2 => (f (x, y)).toList ++ r2) []) ++ racc) [] := by
  induction L with
  | nil => rfl
  | cons x xs ih =>
    rw [List.foldr_cons, List.filterMap_append, ih, List.foldr_cons]
    congr 1
    rw [List.filterMap_map, filterMap_eq_foldr_toList]
    rfl

/-- **C8** (amended): whenever the Chebyshev square does not cross the top
or left edge (`radius ≤ row` and `radius ≤ column` of the center),
`Game.neighbors` returns exactly the non-Void in-bounds items of the
square, excluding the center, in row-major order. (Crossing those edges
triggers Python's wrap-around indexing instead — see the counterexample.) -/
theorem c8_neighbors_row_major (g : Game) (b : Board) (radius : Int) (obj : Item)
    (hb : currentBoard g = .ok b) (ws : WellSized b)
    (hr1 : radius ≤ obj.core.pos.1) (hr2 : radius ≤ obj.core.pos.2) :
    neighbors g radius obj = .ok (chebyshevItems b obj.core.pos radius) := by
  unfold neighbors
  rw [hb, bindOk]
  try dsimp only
  refine Eq.trans
    (exceptFoldlM_ok (offsetRange radius)
      (fun x => (offsetRange radius).foldr (fun y r2 =>
        ((fun d : Int × Int =>
          if d.1 = (0 : Int) ∧ d.2 = (0 : Int) then none
          else
            let tx := obj.core.pos.1 + d.1
            let ty := obj.core.pos.2 + d.2
            if 0 ≤ tx ∧ tx < (b.height : Int) ∧ 0 ≤ ty ∧ ty < (b.width : Int) then
              match cellAt b tx.toNat ty.toNat with
              | some it => if it.core.kind = .void then none else some it
              | none => none
            else none) (x, y)).toList ++ r2) [])
      _
      (fun acc x hx => exceptFoldlM_ok _ _ _ (fun acc2 y hy => ?_) acc) []) ?_
  · obtain ⟨hxl, hxr⟩ := mem_offsetRange hx
    obtain ⟨hyl, hyr⟩ := mem_offsetRange hy
    by_cases hxy : x = 0 ∧ y = 0
    · rw [if_pos hxy]
      try dsimp only
      rw [if_pos hxy, show (none : Option Item).toList = [] from rfl,
        List.append_nil]
      rfl
    · rw [if_neg hxy]
      try dsimp only
      rw [if_neg hxy]
      by_cases hbnd : obj.core.pos.1 + x < (b.height : Int)
          ∧ obj.core.pos.2 + y < (b.width : Int)
      · have h0tx : 0 ≤ obj.core.pos.1 + x := by omega
        have h0ty : 0 ≤ obj.core.pos.2 + y := by omega
        rw [if_pos hbnd]
        rw [if_pos (show 0 ≤ obj.core.pos.1 + x
            ∧ obj.core.pos.1 + x < (b.height : Int)
            ∧ 0 ≤ obj.core.pos.2 + y ∧ obj.core.pos.2 + y < (b.width : Int) from
            ⟨h0tx, hbnd.1, h0ty, hbnd.2⟩)]
        have htxN : (obj.core.pos.1 + x).toNat < b.height := by omega
        have htyN : (obj.core.pos.2 + y).toNat < b.width := by omega
        obtain ⟨it, hit⟩ := cellAt_of_lt ws htxN htyN
        unfold boardItem
        rw [if_pos hbnd]
        rw [matGet_eq_cell ws h0tx hbnd.1 h0ty hbnd.2 hit, bindOk, hit]
        try dsimp only
        by_cases hvd : it.core.kind = ItemKind.void
        · rw [if_neg (show ¬¬(it.core.kind = ItemKind.void) from fun hc => hc hvd),
            if_pos hvd, show (none : Option Item).toList = [] from rfl,
            List.append_nil]
          rfl
        · rw [if_pos (show ¬(it.core.kind = ItemKind.void) from hvd),
            if_neg hvd, show (some it).toList = [it] from rfl]
          rfl
      · rw [if_neg hbnd]
        rw [if_neg (show ¬(0 ≤ obj.core.pos.1 + x
            ∧ obj.core.pos.1 + x < (b.height : Int)
            ∧ 0 ≤ obj.core.pos.2 + y ∧ obj.core.pos.2 + y < (b.width : Int)) from
            fun hc => hbnd ⟨hc.2.1, hc.2.2.2⟩)]
        rw [show (none : Option Item).toList = [] from rfl, List.append_nil]
        rfl
  · rw [List.nil_append]
    unfold chebyshevItems squareOffsets
    rw [filterMap_pairs]

/-- Witness for C8: on the 5×5 board with a Wall at (1,2) and the player at
(2,2), `neighbors(1, player)` returns exactly the row-major Chebyshev
enumeration, which is the single Wall. -/
theorem c8_witness :
    neighbors midScene 1 midScenePlayer
      = .ok (chebyshevItems (placeAll (mkBoard "B" 5 5 " ")
          [(mkWall 3, 1, 2), (mkPlayer 1 none, 2, 2)]) (2, 2) 1)
    ∧ chebyshevItems (placeAll (mkBoard "B" 5 5 " ")
          [(mkWall 3, 1, 2), (mkPlayer 1 none, 2, 2)]) (2, 2) 1
        = [reposition (mkWall 3) 1 2] :=
  ⟨c8_neighbors_row_major midScene
      (placeAll (mkBoard "B" 5 5 " ") [(mkWall 3, 1, 2), (mkPlayer 1 none, 2, 2)])
      1 midScenePlayer rfl (by decide) (by decide) (by decide), rfl⟩

theorem movableKind_ne_void {k : ItemKind} (h : isMovableKind k = true) :
    k ≠ ItemKind.void := by
  cases k <;> simp_all [isMovableKind]

theorem placeNorm_movables_eq (b : Board) (ex it : Item) (rn cn : Nat) (r c : Int) :
    (placeNorm b ex it rn cn r c).movables
      = if isMovableKind it.core.kind then insert it.core.id b.movables
        else b.movables := by
  unfold placeNorm
  rw [regSets_movables_eq]
  dsimp only [reposition]
  rw [setCell_movables]
  unfold parkIf
  split_ifs <;> simp

theorem placeNorm_immovables_eq (b : Board) (ex it : Item) (rn cn : Nat) (r c : Int) :
    (placeNorm b ex it rn cn r c).immovables
      = if isMovableKind it.core.kind then b.immovables
        else if isImmovableKind it.core.kind then insert it.core.id b.immovables
        else b.immovables := by
  unfold placeNorm
  rw [regSets_immovables_eq]
  dsimp only [reposition]
  rw [setCell_immovables]
  unfold parkIf
  split_ifs <;> simp

theorem clearNorm_movables_eq (b : Board) (occ : Item) (pk : Option Item)
    (rn cn : Nat) :
    (clearNorm b occ pk rn cn).movables = (unregister b occ).movables := by
  unfold clearNorm
  cases pk <;> simp

theorem clearNorm_immovables_eq (b : Board) (occ : Item) (pk : Option Item)
    (rn cn : Nat) :
    (clearNorm b occ pk rn cn).immovables = (unregister b occ).immovables := by
  unfold clearNorm
  cases pk <;> simp

theorem goodSets_placeNorm {b : Board} (ws : WellSized b) {rn cn : Nat}
    (hr : rn < b.height) (hc : cn < b.width) {ex : Item}
    (hcell : cellAt b rn cn = some ex) (gs : GoodSets b) (it : Item) (r c : Int) :
    GoodSets (placeNorm b ex it rn cn r c) := by
  have hsubM : b.movables ⊆ (placeNorm b ex it rn cn r c).movables := by
    rw [placeNorm_movables_eq]
    split
    · exact Finset.subset_insert _ _
    · exact Finset.Subset.refl _
  have hsubI : b.immovables ⊆ (placeNorm b ex it rn cn r c).immovables := by
    rw [placeNorm_immovables_eq]
    split
    · exact Finset.Subset.refl _
    · split
      · exact Finset.subset_insert _ _
      · exact Finset.Subset.refl _
  constructor
  · intro rn' hr' cn' hc' x hx
    rw [placeNorm_height] at hr'
    rw [placeNorm_width] at hc'
    by_cases hslot : rn' = rn ∧ cn' = cn
    · obtain ⟨h1, h2⟩ := hslot
      subst h1
      subst h2
      rw [cellAt_placeNorm_self ws hr hc ex it r c] at hx
      have hxe : x = reposition it r c := by
        cases hx
        rfl
      subst hxe
      constructor
      · intro hm
        rw [placeNorm_movables_eq,
          if_pos (show isMovableKind it.core.kind = true from hm)]
        exact Finset.mem_insert_self _ _
      · intro hi
        rw [placeNorm_immovables_eq]
        rw [if_neg (show ¬isMovableKind it.core.kind = true from fun hm => by
          have := movable_not_immovable it.core.kind hm
          exact absurd hi (by simp [reposition, this]))]
        rw [if_pos (show isImmovableKind it.core.kind = true from hi)]
        exact Finset.mem_insert_self _ _
    · rw [cellAt_placeNorm_ne hslot ex it r c] at hx
      obtain ⟨hmv, himv⟩ := gs.1 rn' hr' cn' hc' x hx
      exact ⟨fun hm => hsubM (hmv hm), fun hi => hsubI (himv hi)⟩
  · intro rn' hr' cn' hc' x hx
    rw [placeNorm_height] at hr'
    rw [placeNorm_width] at hc'
    unfold placeNorm at hx
    rw [parkAt_regSets, parkAt_setCell] at hx
    unfold parkIf at hx
    by_cases hsv : isImmovableKind ex.core.kind = true ∧ ex.core.restorable = true
        ∧ ex.core.overlappable = true
    · rw [if_pos hsv] at hx
      by_cases hslot : rn' = rn ∧ cn' = cn
      · obtain ⟨h1, h2⟩ := hslot
        subst h1
        subst h2
        rw [parkAt_setPark_self ws hr hc (some ex)] at hx
        have hxe : x = ex := by
          cases hx
          rfl
        subst hxe
        exact ⟨hsv.1, hsubI ((gs.1 _ hr _ hc _ hcell).2 hsv.1)⟩
      · rw [parkAt_setPark_ne (some ex) hslot] at hx
        obtain ⟨hi, hmem⟩ := gs.2 rn' hr' cn' hc' x hx
        exact ⟨hi, hsubI hmem⟩
    · rw [if_neg hsv] at hx
      obtain ⟨hi, hmem⟩ := gs.2 rn' hr' cn' hc' x hx
      exact ⟨hi, hsubI hmem⟩

theorem mem_foldr_pairs {r c : Nat} {L M : List Nat} (hr : r ∈ L) (hc : c ∈ M) :
    (r, c) ∈ L.foldr (fun x acc => (M.map (fun y => (x, y))) ++ acc) [] := by
  induction L with
  | nil => cases hr
  | cons x xs ih =>
    rw [List.foldr_cons]
    rcases List.mem_cons.mp hr with h | h
    · subst h
      exact List.mem_append.mpr (Or.inl (List.mem_map_of_mem _ hc))
    · exact List.mem_append.mpr (Or.inr (ih h))

theorem mem_boardSlots {b : Board} {rn cn : Nat} (hr : rn < b.height)
    (hc : cn < b.width) : (rn, cn) ∈ boardSlots b := by
  unfold boardSlots
  exact mem_foldr_pairs (List.mem_range.mpr hr) (List.mem_range.mpr hc)

theorem goodSets_clearNorm {b : Board} (ws : WellSized b) {rn cn : Nat}
    (hr : rn < b.height) (hc : cn < b.width) {occ : Item}
    (hcell : cellAt b rn cn = some occ) (gs : GoodSets b) (ds : DistinctSlots b)
    (vf : VoidsFree b) :
    GoodSets (clearNorm b occ (parkAt b rn cn) rn cn) := by
  have hkeepM : ∀ i, i ∈ b.movables →
      (occ.core.kind = ItemKind.void ∨ i ≠ occ.core.id) →
      i ∈ (unregister b occ).movables := by
    intro i hi hcase
    rw [unregister_movables_eq]
    split
    · rename_i hocc
      rcases hcase with hv | hne
      · exact absurd hocc ((vf rn hr cn hc occ hcell hv).1)
      · exact Finset.mem_erase.mpr ⟨hne, hi⟩
    · exact hi
  have hkeepI : ∀ i, i ∈ b.immovables →
      (occ.core.kind = ItemKind.void ∨ i ≠ occ.core.id) →
      i ∈ (unregister b occ).immovables := by
    intro i hi hcase
    rw [unregister_immovables_eq]
    split
    · exact hi
    · split
      · rename_i hocc
        rcases hcase with hv | hne
        · exact absurd hocc ((vf rn hr cn hc occ hcell hv).2)
        · exact Finset.mem_erase.mpr ⟨hne, hi⟩
      · exact hi
  have hslotne : ∀ {rn' cn' : Nat}, ¬(rn' = rn ∧ cn' = cn) →
      ((rn', cn') : Nat × Nat) ≠ (rn, cn) :=
    fun h hpq => h ⟨congrArg Prod.fst hpq, congrArg Prod.snd hpq⟩
  constructor
  · intro rn' hr' cn' hc' x hx
    simp only [clearNorm_height] at hr'
    simp only [clearNorm_width] at hc'
    by_cases hslot : rn' = rn ∧ cn' = cn
    · obtain ⟨h1, h2⟩ := hslot
      subst h1
      subst h2
      rw [cellAt_clearNorm_self ws hr hc occ (parkAt b rn' cn')] at hx
      have hxe : x = (parkAt b rn' cn').getD (generateVoidCell b) := by
        cases hx
        rfl
      subst hxe
      cases hpk : parkAt b rn' cn' with
      | none =>
        simp only [Option.getD_none]
        constructor
        · intro hm
          exact absurd rfl (movableKind_ne_void hm)
        · intro hi
          exact absurd rfl (immovable_ne_void hi)
      | some p =>
        simp only [Option.getD_some]
        obtain ⟨himmp, hmemp⟩ := gs.2 rn' hr' cn' hc' p
          (show p ∈ parkAt b rn' cn' from by rw [hpk]; rfl)
        constructor
        · intro hm
          exact absurd himmp (by simp [movable_not_immovable _ hm])
        · intro _
          rw [clearNorm_immovables_eq]
          refine hkeepI p.core.id hmemp ?_
          by_cases hov : occ.core.kind = ItemKind.void
          · exact Or.inl hov
          · exact Or.inr (fun he =>
              ds.2.1 (rn', cn') (mem_boardSlots hr' hc') (rn', cn')
                (mem_boardSlots hr' hc') occ hcell p
                (show p ∈ parkAt b rn' cn' from by rw [hpk]; rfl) hov he.symm)
    · rw [cellAt_clearNorm_ne hslot occ (parkAt b rn cn)] at hx
      obtain ⟨hmv, himv⟩ := gs.1 rn' hr' cn' hc' x hx
      refine ⟨fun hm => ?_, fun hi => ?_⟩
      · rw [clearNorm_movables_eq]
        refine hkeepM x.core.id (hmv hm) ?_
        by_cases hov : occ.core.kind = ItemKind.void
        · exact Or.inl hov
        · exact Or.inr (ds.1 (rn', cn') (mem_boardSlots hr' hc') (rn, cn)
            (mem_boardSlots hr hc) x hx occ hcell (movableKind_ne_void hm) hov
            (hslotne hslot))
      · rw [clearNorm_immovables_eq]
        refine hkeepI x.core.id (himv hi) ?_
        by_cases hov : occ.core.kind = ItemKind.void
        · exact Or.inl hov
        · exact Or.inr (ds.1 (rn', cn') (mem_boardSlots hr' hc') (rn, cn)
            (mem_boardSlots hr hc) x hx occ hcell (immovable_ne_void hi) hov
            (hslotne hslot))
  · intro rn' hr' cn' hc' x hx
    simp only [clearNorm_height] at hr'
    simp only [clearNorm_width] at hc'
    by_cases hslot : rn' = rn ∧ cn' = cn
    · obtain ⟨h1, h2⟩ := hslot
      subst h1
      subst h2
      rw [parkAt_clearNorm_self ws hr hc occ (parkAt b rn' cn')] at hx
      cases hpk : parkAt b rn' cn' with
      | none =>
        rw [hpk] at hx
        simp at hx
      | some p =>
        rw [hpk] at hx
        simp at hx
    · rw [parkAt_clearNorm_ne hslot occ (parkAt b rn cn)] at hx
      obtain ⟨hix, hmemx⟩ := gs.2 rn' hr' cn' hc' x hx
      refine ⟨hix, ?_⟩
      rw [clearNorm_immovables_eq]
      refine hkeepI x.core.id hmemx ?_
      by_cases hov : occ.core.kind = ItemKind.void
      · exact Or.inl hov
      · exact Or.inr (fun he =>
          ds.2.1 (rn, cn) (mem_boardSlots hr hc) (rn', cn')
            (mem_boardSlots hr' hc') occ hcell x hx hov he.symm)

/-- **C4** (amended): the forward inclusion is an invariant of the cited
mutators: if every Movable/Immovable stored in the matrix — and every item
parked in the overlap layer — is registered in the corresponding set, then
the same holds after any successful in-bounds `place_item`, and (given
id-distinctness across slots and unregistered generated voids) after any
successful in-bounds `clear_cell`. The reverse inclusion of the claim is
false: see the counterexample, where a placed-over Door stays in
`immovables` while absent from the matrix. -/
theorem c4_sets_forward_invariant :
    (∀ (b : Board) (it : Item) (r c : Int) (b' : Board) (it' : Item),
      WellSized b → GoodSets b →
      0 ≤ r → r < (b.height : Int) → 0 ≤ c → c < (b.width : Int) →
      placeItem b it r c = .ok (b', it') → GoodSets b')
    ∧ (∀ (b : Board) (r c : Int) (b' : Board),
      WellSized b → GoodSets b → DistinctSlots b → VoidsFree b →
      0 ≤ r → r < (b.height : Int) → 0 ≤ c → c < (b.width : Int) →
      clearCell b r c = .ok b' → GoodSets b') := by
  constructor
  · intro b it r c b' it' ws gs h0r hr h0c hc hok
    have hrN : r.toNat < b.height := by omega
    have hcN : c.toNat < b.width := by omega
    obtain ⟨ex, hex⟩ := cellAt_of_lt ws hrN hcN
    rw [placeItem_ok it ws h0r hr h0c hc hex] at hok
    have hb' : b' = placeNorm b ex it r.toNat c.toNat r c := by
      cases hok
      rfl
    subst hb'
    exact goodSets_placeNorm ws hrN hcN hex gs it r c
  · intro b r c b' ws gs ds vf h0r hr h0c hc hok
    have hrN : r.toNat < b.height := by omega
    have hcN : c.toNat < b.width := by omega
    obtain ⟨occ, hocc⟩ := cellAt_of_lt ws hrN hcN
    rw [clearCell_ok ws h0r hr h0c hc hocc] at hok
    have hb' : b' = clearNorm b occ (parkAt b r.toNat c.toNat) r.toNat c.toNat := by
      cases hok
      rfl
    subst hb'
    exact goodSets_clearNorm ws hrN hcN hocc gs ds vf

/-- Witness for C4: placing a Door on a fresh 2×2 board preserves the
forward set invariant, and clearing the stomped cell of the Door/Player
board does too. -/
theorem c4_witness :
    GoodSets (placeAll (mkBoard "B" 2 2 " ") [(mkDoor 2, 0, 0)])
    ∧ GoodSets (clearNorm stompScene (reposition (mkPlayer 1 none) 0 0)
        (parkAt stompScene 0 0) 0 0) :=
  ⟨c4_sets_forward_invariant.1 (mkBoard "B" 2 2 " ") (mkDoor 2) 0 0
      (placeAll (mkBoard "B" 2 2 " ") [(mkDoor 2, 0, 0)]) (reposition (mkDoor 2) 0 0)
      (by decide) (by decide) (by decide) (by decide) (by decide) (by decide)
      (by rfl),
   c4_sets_forward_invariant.2 stompScene 0 0
      (clearNorm stompScene (reposition (mkPlayer 1 none) 0 0)
        (parkAt stompScene 0 0) 0 0)
      (by decide) (by decide) (by decide) (by decide) (by decide) (by decide)
      (by decide) (by decide) (by rfl)⟩

end PyGame
